import Mathlib

/-!
# Verification of the 9router account-pool arbiter, error classifier,
# token-refresh retry wrapper and Cursor wire codec

Shallow embedding of the JavaScript sources:
* `open-sse/services/accountFallback.js` (`checkFallbackError`, `getQuotaCooldown`,
  `isAccountUnavailable`, `getEarliestRateLimitedUntil`, `filterAvailableAccounts`)
* `src/sse/services/auth.js` (`getProviderCredentials`, `markAccountUnavailable`,
  `clearAccountError`)
* `src/sse/handlers/chat.js` (the dispatch loop's fallback decision)
* `open-sse/services/tokenRefresh.js` (`refreshWithRetry`)
* `open-sse/utils/cursorProtobuf.js` (varint/field encoding, `buildChatRequest`,
  `wrapConnectRPCFrame`, `generateCursorBody`, `parseConnectRPCFrame`,
  `decodeMessage`, `extractTextFromResponse`)
* `open-sse/executors/cursor.js` (`generateChecksum`, tool-call reassembly loop)

Machine integers are modelled as `Nat`/`Int` with explicit wrapping where
JavaScript's 32-bit operator semantics matter (shift counts are taken mod 32,
`& 0xFF` is `% 256`, and so on).  Timestamps (`Date` values / ISO strings) are
modelled as `Nat` instants in milliseconds.  JavaScript truthiness on optional
strings/numbers is modelled explicitly (`jsTruthyStr`, `jsOrNat`).
-/

/-! ## JavaScript-semantics helpers -/

/-- JS truthiness of an optional string: `null`/`undefined` and `""` are falsy. -/
def jsTruthyStr : Option String → Bool
  | none => false
  | some s => s ≠ ""

/-- JS `x || d` on an optional number: `null`/`undefined` and `0` give `d`. -/
def jsOrNat (x : Option Nat) (d : Nat) : Nat :=
  match x with
  | none => d
  | some n => if n = 0 then d else n

/-- JS `x || null` on an optional string: `""` collapses to `null`. -/
def jsOrNullStr (x : Option String) : Option String :=
  match x with
  | none => none
  | some s => if s = "" then none else some s

/-- JS `x || null` on an optional number: `0` collapses to `null`. -/
def jsOrNullNat (x : Option Nat) : Option Nat :=
  match x with
  | none => none
  | some n => if n = 0 then none else some n

/-- `pat.isPrefixOf hay` for character lists (used to model `String.includes`). -/
def listIsPrefix : List Char → List Char → Bool
  | [], _ => true
  | _ :: _, [] => false
  | p :: ps, h :: hs => p == h && listIsPrefix ps hs

/-- JS `hay.includes(pat)`: `pat` occurs contiguously inside `hay`. -/
def listIsInfixOf : List Char → List Char → Bool
  | pat, [] => pat.isEmpty
  | pat, h :: t => listIsPrefix pat (h :: t) || listIsInfixOf pat t

/-- JS `hay.includes(pat)` on strings. -/
def strIncludes (hay pat : String) : Bool :=
  listIsInfixOf pat.data hay.data

/-- ASCII lowercasing of one character (the fragment of JS `toLowerCase`
exercised by the classifier's ASCII keywords). -/
def charToLower (ch : Char) : Char :=
  if 65 ≤ ch.toNat ∧ ch.toNat ≤ 90 then Char.ofNat (ch.toNat + 32) else ch

/-- JS `s.toLowerCase()`, restricted to ASCII case mapping. -/
def jsToLower (s : String) : String :=
  ⟨s.data.map charToLower⟩

/-! ## Error classifier (`open-sse/services/accountFallback.js`) -/

/-- The `BACKOFF_CONFIG` constant from `open-sse/config/constants.js`
(configuration; values abstract). -/
structure BackoffConfig where
  base : Nat
  max : Nat
  maxLevel : Nat

/-- The `COOLDOWN_MS` constants from `open-sse/config/constants.js`
(configuration; values abstract). -/
structure CooldownMs where
  notFound : Nat
  requestNotAllowed : Nat
  unauthorized : Nat
  paymentRequired : Nat
  transient : Nat

/-- Result record of `checkFallbackError`. -/
structure FallbackResult where
  shouldFallback : Bool
  cooldownMs : Nat
  newBackoffLevel : Option Nat
  deriving DecidableEq, Repr

/-- `getQuotaCooldown(backoffLevel)`:
`Math.min(BACKOFF_CONFIG.base * Math.pow(2, backoffLevel), BACKOFF_CONFIG.max)`. -/
def getQuotaCooldown (bc : BackoffConfig) (backoffLevel : Nat) : Nat :=
  min (bc.base * 2 ^ backoffLevel) bc.max

/-- The status-code part of `checkFallbackError` (everything after the
message-text checks; the code falls through to it when `errorText` is falsy or
matches no pattern). `HTTP_STATUS` names from `constants.js` are the standard
numerals: UNAUTHORIZED 401, PAYMENT_REQUIRED 402, FORBIDDEN 403, NOT_FOUND 404,
RATE_LIMITED 429, NOT_ACCEPTABLE 406, REQUEST_TIMEOUT 408, SERVER_ERROR 500,
BAD_GATEWAY 502, SERVICE_UNAVAILABLE 503, GATEWAY_TIMEOUT 504. -/
def checkFallbackStatus (cd : CooldownMs) (bc : BackoffConfig)
    (status : Nat) (backoffLevel : Nat) : FallbackResult :=
  if status = 401 then
    ⟨true, cd.unauthorized, none⟩
  else if status = 402 ∨ status = 403 then
    ⟨true, cd.paymentRequired, none⟩
  else if status = 404 then
    ⟨true, cd.notFound, none⟩
  else if status = 429 then
    ⟨true, getQuotaCooldown bc backoffLevel, some (min (backoffLevel + 1) bc.maxLevel)⟩
  else if status = 406 ∨ status = 408 ∨ status = 500 ∨ status = 502 ∨
          status = 503 ∨ status = 504 then
    ⟨true, cd.transient, none⟩
  else
    ⟨true, cd.transient, none⟩

/-- Does the lower-cased body text contain one of the five rate-limit keywords? -/
def hasRateLimitKeyword (lowerError : String) : Bool :=
  strIncludes lowerError "rate limit" || strIncludes lowerError "too many requests" ||
  strIncludes lowerError "quota exceeded" || strIncludes lowerError "capacity" ||
  strIncludes lowerError "overloaded"

/-- `checkFallbackError(status, errorText, backoffLevel)` from
`accountFallback.js`.  `errorText` is modelled as a string (`""` is the falsy
case in which the message checks are skipped). -/
def checkFallbackError (cd : CooldownMs) (bc : BackoffConfig)
    (status : Nat) (errorText : String) (backoffLevel : Nat) : FallbackResult :=
  if errorText ≠ "" then
    let lowerError := jsToLower errorText
    if strIncludes lowerError "no credentials" then
      ⟨true, cd.notFound, none⟩
    else if strIncludes lowerError "request not allowed" then
      ⟨true, cd.requestNotAllowed, none⟩
    else if hasRateLimitKeyword lowerError then
      ⟨true, getQuotaCooldown bc backoffLevel, some (min (backoffLevel + 1) bc.maxLevel)⟩
    else
      checkFallbackStatus cd bc status backoffLevel
  else
    checkFallbackStatus cd bc status backoffLevel

/-- The classifier as the specification words it: a nine-step decision list,
first match wins, message-text patterns before status codes.  Written from the
spec (§4.1) independently of `checkFallbackError`. -/
def classifySpec (cd : CooldownMs) (bc : BackoffConfig)
    (status : Nat) (errorText : String) (backoffLevel : Nat) : FallbackResult :=
  let lower := jsToLower errorText
  if errorText ≠ "" ∧ strIncludes lower "no credentials" then
    ⟨true, cd.notFound, none⟩
  else if errorText ≠ "" ∧ strIncludes lower "request not allowed" then
    ⟨true, cd.requestNotAllowed, none⟩
  else if errorText ≠ "" ∧ (strIncludes lower "rate limit" ||
      strIncludes lower "too many requests" || strIncludes lower "quota exceeded" ||
      strIncludes lower "capacity" || strIncludes lower "overloaded") then
    ⟨true, min (bc.base * 2 ^ backoffLevel) bc.max,
      some (min (backoffLevel + 1) bc.maxLevel)⟩
  else if status = 401 then
    ⟨true, cd.unauthorized, none⟩
  else if status = 402 ∨ status = 403 then
    ⟨true, cd.paymentRequired, none⟩
  else if status = 404 then
    ⟨true, cd.notFound, none⟩
  else if status = 429 then
    ⟨true, min (bc.base * 2 ^ backoffLevel) bc.max,
      some (min (backoffLevel + 1) bc.maxLevel)⟩
  else if status = 406 ∨ status = 408 ∨ status = 500 ∨ status = 502 ∨
          status = 503 ∨ status = 504 then
    ⟨true, cd.transient, none⟩
  else
    ⟨true, cd.transient, none⟩

/-! ## Data model (`Connection` records, store snapshots) -/

/-- One credential record, as stored by the credential store.  Timestamps
(`expiresAt`, `lastErrorAt`, `rateLimitedUntil`, `lastUsedAt`) are `Nat`
instants in milliseconds; optional fields absent in JS are `none`. -/
structure Connection where
  id : Nat
  provider : String
  priority : Option Nat
  isActive : Bool
  apiKey : Option String
  accessToken : Option String
  refreshToken : Option String
  expiresAt : Option Nat
  testStatus : String
  lastError : Option String
  errorCode : Option Nat
  lastErrorAt : Option Nat
  rateLimitedUntil : Option Nat
  backoffLevel : Option Nat
  lastUsedAt : Option Nat
  consecutiveUseCount : Option Nat
  deriving DecidableEq, Repr

/-- `isAccountUnavailable(unavailableUntil)` from `accountFallback.js`:
false when the field is absent, otherwise `until > Date.now()`. -/
def isAccountUnavailable (unavailableUntil : Option Nat) (now : Nat) : Bool :=
  match unavailableUntil with
  | none => false
  | some u => u > now

/-- One iteration of the `getEarliestRateLimitedUntil` loop. -/
def earliestStep (now : Nat) (earliest : Option Nat) (acc : Connection) : Option Nat :=
  match acc.rateLimitedUntil with
  | none => earliest
  | some u =>
    if u ≤ now then earliest
    else match earliest with
      | none => some u
      | some e => if u < e then some u else some e

/-- `getEarliestRateLimitedUntil(accounts)` from `accountFallback.js`: the
minimum of the `rateLimitedUntil` values that lie strictly in the future
(first-match on ties, via the strict `<` update in the loop). -/
def getEarliestRateLimitedUntil (accounts : List Connection) (now : Nat) : Option Nat :=
  accounts.foldl (earliestStep now) none

/-! ## Account arbiter (`src/sse/services/auth.js`) -/

/-- Process-wide settings read from the store. -/
structure Settings where
  fallbackStrategy : String
  stickyRoundRobinLimit : Option Nat

/-- What `getProviderCredentials` resolves to. -/
inductive CredResult where
  /-- JS `null`: no connections at all (or none usable and none rate limited). -/
  | noCredentials : CredResult
  /-- The `{allRateLimited: true, retryAfter, lastError, lastErrorCode}` sentinel. -/
  | allRateLimited (retryAfter : Nat) (lastError : Option String)
      (lastErrorCode : Option Nat) : CredResult
  /-- A connection snapshot was selected (fields as read before any round-robin
  persistence write). -/
  | selected (c : Connection) : CredResult
  deriving DecidableEq, Repr

/-- The comparator of the `byRecency` sort in `getProviderCredentials`
(most recently used first; both-null ties broken by `priority || 999`;
null `lastUsedAt` sorts last). Returns a JS-comparator-style `Int`. -/
def cmpByRecency (a b : Connection) : Int :=
  match a.lastUsedAt, b.lastUsedAt with
  | none, none => (jsOrNat a.priority 999 : Int) - (jsOrNat b.priority 999 : Int)
  | none, some _ => 1
  | some _, none => -1
  | some ta, some tb => (tb : Int) - (ta : Int)

/-- The comparator of the `sortedByOldest` sort (least recently used first;
null `lastUsedAt` sorts first; both-null ties broken by `priority || 999`). -/
def cmpByOldest (a b : Connection) : Int :=
  match a.lastUsedAt, b.lastUsedAt with
  | none, none => (jsOrNat a.priority 999 : Int) - (jsOrNat b.priority 999 : Int)
  | none, some _ => -1
  | some _, none => 1
  | some ta, some tb => (ta : Int) - (tb : Int)

/-- The comparator of the `rateLimitedConns` sort in `getProviderCredentials`
(ascending `rateLimitedUntil`). -/
def cmpByUntil (a b : Connection) : Int :=
  (a.rateLimitedUntil.getD 0 : Int) - (b.rateLimitedUntil.getD 0 : Int)

/-- Head of a JS stable sort under comparator `cmp`: the first element of the
list that is minimal (strictly-less replacement keeps the earliest occurrence). -/
def sortHead (cmp : Connection → Connection → Int) (h : Connection)
    (t : List Connection) : Connection :=
  t.foldl (fun best c => if cmp c best < 0 then c else best) h

/-- `updateProviderConnection(id, patch)` for the round-robin persistence write
`{lastUsedAt: now, consecutiveUseCount: n}`. -/
def applyRoundRobinUse (store : List Connection) (id : Nat) (now count : Nat) :
    List Connection :=
  store.map fun c =>
    if c.id = id then { c with lastUsedAt := some now, consecutiveUseCount := some count }
    else c

/-- The strategy step of `getProviderCredentials` applied to the non-empty
`availableConnections` list `a :: rest` (auth.js lines 80-126): sticky
round-robin with persistence of `lastUsedAt`/`consecutiveUseCount`, or
fill-first (head of the priority-sorted available list). -/
def selectStrategy (settings : Settings) (connections : List Connection)
    (now : Nat) (a : Connection) (rest : List Connection) :
    CredResult × List Connection :=
  let strategy := if settings.fallbackStrategy = "" then "fill-first"
                  else settings.fallbackStrategy
  if strategy = "round-robin" then
    let stickyLimit := jsOrNat settings.stickyRoundRobinLimit 3
    let current := sortHead cmpByRecency a rest
    let currentCount := jsOrNat current.consecutiveUseCount 0
    if current.lastUsedAt.isSome && currentCount < stickyLimit then
      (.selected current,
       applyRoundRobinUse connections current.id now
         ((current.consecutiveUseCount.getD 0) + 1))
    else
      let connection := sortHead cmpByOldest a rest
      (.selected connection, applyRoundRobinUse connections connection.id now 1)
  else
    (.selected a, connections)

/-- The core of `getProviderCredentials(provider, excludeConnectionId)` from
`auth.js`, as a pure function of the store state.  `connections` is the result
of `getProviderConnections({provider, isActive: true})` (priority-sorted by the
store), `allConnections` of `getProviderConnections({provider})`.  Returns the
result together with the store state after the round-robin persistence write
(unchanged on every other path). -/
def getProviderCredentials (connections allConnections : List Connection)
    (settings : Settings) (excludeConnectionId : Option Nat) (now : Nat) :
    CredResult × List Connection :=
  match connections with
  | [] =>
    -- no active connections: inspect all (incl. inactive) for rate limiting
    match allConnections with
    | [] => (.noCredentials, connections)
    | _ =>
      match getEarliestRateLimitedUntil allConnections now with
      | some earliest => (.allRateLimited earliest none none, connections)
      | none => (.noCredentials, connections)
  | _ =>
    let availableConnections := connections.filter fun c =>
      !(excludeConnectionId.isSome && excludeConnectionId = some c.id) &&
      !isAccountUnavailable c.rateLimitedUntil now
    match availableConnections with
    | [] =>
      match getEarliestRateLimitedUntil connections now with
      | some earliest =>
        -- find the connection with the earliest future rateLimitedUntil
        match connections.filter (fun c =>
            c.rateLimitedUntil.isSome &&
            isAccountUnavailable c.rateLimitedUntil now) with
        | [] => (.allRateLimited earliest none none, connections)
        | rc :: rcs =>
          let earliestConn := sortHead cmpByUntil rc rcs
          (.allRateLimited earliest (jsOrNullStr earliestConn.lastError)
            (jsOrNullNat earliestConn.errorCode), connections)
      | none => (.noCredentials, connections)
    | a :: rest => selectStrategy settings connections now a rest

/-- Result record of `markAccountUnavailable`. -/
structure MarkResult where
  shouldFallback : Bool
  cooldownMs : Nat
  deriving DecidableEq, Repr

/-- The patch `markAccountUnavailable` persists on fallback. -/
def applyMarkUnavailable (store : List Connection) (id : Nat)
    (rateLimitedUntil : Nat) (reason : String) (errorCode : Nat)
    (now : Nat) (backoffLevel : Nat) : List Connection :=
  store.map fun c =>
    if c.id = id then
      { c with rateLimitedUntil := some rateLimitedUntil,
               testStatus := "unavailable",
               lastError := some reason,
               errorCode := some errorCode,
               lastErrorAt := some now,
               backoffLevel := some backoffLevel }
    else c

/-- `markAccountUnavailable(connectionId, status, errorText, provider)` from
`auth.js`, as a pure function of the store: reads the connection's
`backoffLevel || 0`, runs the classifier, and on fallback persists the cooldown
patch (with `lastError = errorText.slice(0, 100)` and
`backoffLevel = newBackoffLevel ?? backoffLevel`). -/
def markAccountUnavailable (cd : CooldownMs) (bc : BackoffConfig)
    (store : List Connection) (connectionId : Nat) (status : Nat)
    (errorText : String) (now : Nat) : MarkResult × List Connection :=
  let conn := store.find? fun c => c.id = connectionId
  let backoffLevel := jsOrNat (conn.bind Connection.backoffLevel) 0
  let r := checkFallbackError cd bc status errorText backoffLevel
  if !r.shouldFallback then (⟨false, 0⟩, store)
  else
    let rateLimitedUntil := now + r.cooldownMs
    let reason := errorText.take 100
    (⟨true, r.cooldownMs⟩,
     applyMarkUnavailable store connectionId rateLimitedUntil reason status now
       (r.newBackoffLevel.getD backoffLevel))

/-- The patch `clearAccountError` persists. -/
def applyClearError (c : Connection) : Connection :=
  { c with testStatus := "active", lastError := none, lastErrorAt := none,
           rateLimitedUntil := none, backoffLevel := some 0 }

/-- `clearAccountError(connectionId, currentConnection)` from `auth.js`:
returns `none` (no store write) when the snapshot shows no error
(`testStatus !== "unavailable" && !lastError && !rateLimitedUntil`),
otherwise the cleared record to persist. -/
def clearAccountError (currentConnection : Connection) : Option Connection :=
  let hasError := currentConnection.testStatus = "unavailable" ||
                  jsTruthyStr currentConnection.lastError ||
                  currentConnection.rateLimitedUntil.isSome
  if hasError then some (applyClearError currentConnection) else none

/-! ## Exponential backoff on consecutive rate-limit failures (C2) -/

/-- The backoff level the code reads from a connection (`conn?.backoffLevel || 0`). -/
def connBackoffLevel (c : Connection) : Nat :=
  jsOrNat c.backoffLevel 0

/-- The input `(status, errorText)` takes the classifier's rate-limit branch:
either the body contains a rate-limit keyword (and none of the two
higher-priority text patterns), or the status is 429 and no text pattern
matches at all. -/
def isRateLimitTrigger (status : Nat) (errorText : String) : Prop :=
  (errorText ≠ "" ∧ ¬ strIncludes (jsToLower errorText) "no credentials" = true ∧
   ¬ strIncludes (jsToLower errorText) "request not allowed" = true ∧
   hasRateLimitKeyword (jsToLower errorText) = true) ∨
  (status = 429 ∧
   (errorText = "" ∨ (¬ strIncludes (jsToLower errorText) "no credentials" = true ∧
    ¬ strIncludes (jsToLower errorText) "request not allowed" = true ∧
    ¬ hasRateLimitKeyword (jsToLower errorText) = true)))

/-- One rate-limit failure on a single-connection store, as performed by
`markAccountUnavailable`: the connection after the persistence write. -/
def rlFailStepConn (cd : CooldownMs) (bc : BackoffConfig)
    (status : Nat) (errorText : String) (now : Nat) (c : Connection) : Connection :=
  ((markAccountUnavailable cd bc [c] c.id status errorText now).2).headD c

/-- The connection after `k` consecutive rate-limit failures. -/
def rlFailures (cd : CooldownMs) (bc : BackoffConfig)
    (status : Nat) (errorText : String) (now : Nat) (c : Connection) : Nat → Connection
  | 0 => c
  | k + 1 => rlFailStepConn cd bc status errorText now
      (rlFailures cd bc status errorText now c k)

/-- The cooldown `markAccountUnavailable` reports at the `k`-th failure
(failures counted from 1). -/
def rlCooldownAt (cd : CooldownMs) (bc : BackoffConfig)
    (status : Nat) (errorText : String) (now : Nat) (c : Connection) (k : Nat) : Nat :=
  (markAccountUnavailable cd bc [rlFailures cd bc status errorText now c k]
    (rlFailures cd bc status errorText now c k).id status errorText now).1.cooldownMs

/-- A concrete cooldown configuration used by witnesses (spec comment:
level 0 = 1 s, doubling, capped at 2 min). -/
def bcW : BackoffConfig := ⟨1000, 120000, 7⟩

/-- Concrete cooldown constants used by witnesses. -/
def cdW : CooldownMs := ⟨60000, 300000, 600000, 3600000, 30000⟩

/-- A fresh never-used active connection used by witnesses. -/
def connW : Connection :=
  ⟨1, "cursor", some 1, true, none, none, none, none, "active", none, none,
   none, none, none, none, none⟩

/-! ## C10: every classification requests fallback; the dispatch loop's
immediate-surface branch is dead -/

/-- What the dispatch loop (`handleSingleModelChat`, chat.js) does after a
failed executor call and `markAccountUnavailable`: rotate to the next account
when `shouldFallback`, otherwise surface the error response immediately. -/
inductive DispatchNext where
  | rotate : DispatchNext
  | surface : DispatchNext
  deriving DecidableEq, Repr

/-- The fallback decision of one iteration of the dispatch loop
(chat.js lines 150-161). -/
def dispatchOnFailure (cd : CooldownMs) (bc : BackoffConfig)
    (store : List Connection) (connectionId : Nat) (status : Nat)
    (errorText : String) (now : Nat) : DispatchNext :=
  if (markAccountUnavailable cd bc store connectionId status errorText now).1.shouldFallback
  then .rotate else .surface

/-! ## C9: `clearAccountError` no-op condition and frame -/

/-- The snapshot on which the claimed no-op condition
(`testStatus == "active" && !lastError && !rateLimitedUntil`) disagrees with
the code: `testStatus = "error"`, no `lastError`, no `rateLimitedUntil`. -/
def connErrStatusW : Connection :=
  ⟨2, "claude", some 1, true, none, none, none, none, "error", none, none,
   none, none, none, none, none⟩

/-- An errored connection used as the C9 witness input. -/
def connUnavailW : Connection :=
  ⟨3, "codex", some 2, true, none, some "tok", none, none, "unavailable",
   some "Rate limit exceeded", some 429, some 100, some 99999, some 2, some 50,
   some 1⟩

/-! ## C3: selection never returns a connection in cooldown -/

/-- Two rate-limited connections used by the C3 witness. -/
def connRL1 : Connection :=
  ⟨11, "claude", some 1, true, none, none, none, none, "unavailable",
   some "Rate limit exceeded", some 429, some 40, some 90, some 1, none, none⟩

/-- Second rate-limited connection (earlier recovery) for the C3 witness. -/
def connRL2 : Connection :=
  ⟨12, "claude", some 2, true, none, none, none, none, "unavailable",
   some "quota exceeded", some 429, some 41, some 70, some 2, none, none⟩

/-! ## C4: sticky round-robin -/

/-- Round-robin settings with `stickyRoundRobinLimit = 2` (scenario S2). -/
def settingsRR : Settings := ⟨"round-robin", some 2⟩

/-- Connection A of scenario S2: priority 1, never used. -/
def connA : Connection :=
  ⟨1, "cursor", some 1, true, none, none, none, none, "active", none, none,
   none, none, none, none, none⟩

/-- Connection B of scenario S2: priority 2, never used. -/
def connB : Connection :=
  ⟨2, "cursor", some 2, true, none, none, none, none, "active", none, none,
   none, none, none, none, none⟩

/-- The id of a selection result (`none` when nothing was selected). -/
def rrSelectId : CredResult → Option Nat
  | .selected c => some c.id
  | _ => none

/-- Run `k` consecutive selections through `getProviderCredentials`, threading
the persisted store and a strictly increasing clock. -/
def rrRun : List Connection → Nat → Nat → List (Option Nat)
  | _, _, 0 => []
  | store, now, Nat.succ k =>
    let r := getProviderCredentials store store settingsRR none now
    rrSelectId r.1 :: rrRun r.2 (now + 1) k

/-- Six consecutive selections of scenario S2. -/
def rrTrace6 : List (Option Nat) := rrRun [connA, connB] 1 6

/-- A recently-used connection (time 5, one consecutive use) for the C4 witness. -/
def connA5 : Connection :=
  ⟨1, "cursor", some 1, true, none, none, none, none, "active", none, none,
   none, none, none, some 5, some 1⟩

/-- A less-recently-used connection (time 3) for the C4 witness. -/
def connB3 : Connection :=
  ⟨2, "cursor", some 2, true, none, none, none, none, "active", none, none,
   none, none, none, some 3, some 2⟩

/-! ## C8: `refreshWithRetry` (open-sse/services/tokenRefresh.js) -/

/-- Outcome of one invocation of the refresh function `fn` at a given attempt:
a truthy token result, a falsy result (JS `null`), or a thrown exception
(caught and logged by the wrapper). -/
inductive RefreshOutcome (α : Type) where
  | ok (v : α) : RefreshOutcome α
  | nullResult : RefreshOutcome α
  | threw : RefreshOutcome α
  deriving DecidableEq, Repr

/-- Observable behaviour of one `refreshWithRetry` run: the value returned,
the sleeps performed (in ms, in order), and the number of attempts made. -/
structure RetryTrace (α : Type) where
  result : Option α
  delays : List Nat
  attempts : Nat
  deriving DecidableEq, Repr

/-- The `for (let attempt = 0; attempt < maxRetries; attempt++)` loop of
`refreshWithRetry`: before every retry (`attempt > 0`) it sleeps
`attempt * 1000` ms; a truthy result returns immediately; null results and
exceptions continue.  The fuel argument counts the remaining iterations
(`maxRetries - attempt`). -/
def refreshLoop (fn : Nat → RefreshOutcome α) : Nat → Nat → List Nat → RetryTrace α
  | 0, attempt, ds => ⟨none, ds, attempt⟩
  | fuel + 1, attempt, ds =>
    let ds' := if 0 < attempt then ds ++ [attempt * 1000] else ds
    match fn attempt with
    | .ok v => ⟨some v, ds', attempt + 1⟩
    | .nullResult => refreshLoop fn fuel (attempt + 1) ds'
    | .threw => refreshLoop fn fuel (attempt + 1) ds'

/-- `refreshWithRetry(refreshFn, maxRetries = 3)` from tokenRefresh.js. -/
def refreshWithRetry (fn : Nat → RefreshOutcome α) (maxRetries : Nat := 3) :
    RetryTrace α :=
  refreshLoop fn maxRetries 0 []

/-- The always-failing refresh function used by the C8 counterexample. -/
def refreshAlwaysNull : Nat → RefreshOutcome Nat := fun _ => .nullResult

/-- The refresh function of the C8 witness: fails once, succeeds at attempt 1. -/
def refreshSucceedsSecond : Nat → RefreshOutcome Nat :=
  fun k => if k = 1 then .ok 42 else .nullResult

/-! ## Cursor wire codec (open-sse/utils/cursorProtobuf.js)

Bytes are `List Nat` with every element < 256 by construction.  JavaScript
32-bit operator caveats are noted where they matter; varint decoding models
values below 2^31, the only range the code ever produces or consumes. -/

/-- UTF-8 encoding of one code point (`TextEncoder` semantics). -/
def utf8EncodeCp (n : Nat) : List Nat :=
  if n < 0x80 then [n]
  else if n < 0x800 then [0xC0 ||| (n >>> 6), 0x80 ||| (n &&& 0x3F)]
  else if n < 0x10000 then
    [0xE0 ||| (n >>> 12), 0x80 ||| ((n >>> 6) &&& 0x3F), 0x80 ||| (n &&& 0x3F)]
  else
    [0xF0 ||| (n >>> 18), 0x80 ||| ((n >>> 12) &&& 0x3F),
     0x80 ||| ((n >>> 6) &&& 0x3F), 0x80 ||| (n &&& 0x3F)]

/-- `new TextEncoder().encode(s)`. -/
def utf8Bytes (s : String) : List Nat :=
  s.data.flatMap fun c => utf8EncodeCp c.toNat

/-- `encodeVarint(value)`: little-endian base-128 with continuation bits.  The
loop runs while `value >= 0x80`; the fuel bound (10 suffices for anything below
2^70) makes the recursion structural. -/
def encodeVarintFuel : Nat → Nat → List Nat
  | 0, value => [value &&& 0x7F]
  | fuel + 1, value =>
    if value < 0x80 then [value]
    else ((value &&& 0x7F) ||| 0x80) :: encodeVarintFuel fuel (value >>> 7)

/-- `encodeVarint(value)` from cursorProtobuf.js. -/
def encodeVarint (value : Nat) : List Nat :=
  encodeVarintFuel 99 value

/-- A value passed to `encodeField` (JS is dynamically typed: the call sites
use numbers for wire type 0 and strings / byte arrays for wire type 2). -/
inductive FieldValue where
  | nat (n : Nat) : FieldValue
  | str (s : String) : FieldValue
  | bytes (bs : List Nat) : FieldValue

/-- `encodeField(fieldNum, wireType, value)` from cursorProtobuf.js:
`tag = (fieldNum << 3) | wireType`; wire type 0 encodes a varint, wire type 2
a length-delimited string/bytes (unknown value types encode as empty bytes);
other wire types return an empty array. -/
def encodeField (fieldNum wireType : Nat) (value : FieldValue) : List Nat :=
  let tagBytes := encodeVarint ((fieldNum <<< 3) ||| wireType)
  if wireType = 0 then
    match value with
    | .nat n => tagBytes ++ encodeVarint n
    | _ => tagBytes ++ encodeVarint 0
  else if wireType = 2 then
    let dataBytes := match value with
      | .str s => utf8Bytes s
      | .bytes bs => bs
      | .nat _ => []
    tagBytes ++ encodeVarint dataBytes.length ++ dataBytes
  else []

/-- `encodeMessage(content, role, messageId, chatModeEnum)`. -/
def encodeMessage (content : String) (role : Nat) (messageId : String)
    (chatModeEnum : Option Nat) : List Nat :=
  encodeField 1 2 (.str content) ++
  encodeField 2 0 (.nat role) ++
  encodeField 13 2 (.str messageId) ++
  (match chatModeEnum with
   | some cme => encodeField 47 0 (.nat cme)
   | none => [])

/-- `encodeInstruction(instructionText)`: empty for a falsy argument. -/
def encodeInstruction (instructionText : String) : List Nat :=
  if instructionText = "" then [] else encodeField 1 2 (.str instructionText)

/-- `encodeModel(modelName)`. -/
def encodeModel (modelName : String) : List Nat :=
  encodeField 1 2 (.str modelName) ++ encodeField 4 2 (.bytes [])

/-- `encodeCursorSetting()`. -/
def encodeCursorSetting : List Nat :=
  let unknown6 := encodeField 1 2 (.bytes []) ++ encodeField 2 2 (.bytes [])
  encodeField 1 2 (.str "cursor\\aisettings") ++
  encodeField 3 2 (.bytes []) ++
  encodeField 6 2 (.bytes unknown6) ++
  encodeField 8 0 (.nat 1) ++
  encodeField 9 0 (.nat 1)

/-- Ambient non-determinism of `encodeRequest`: the per-message and
conversation UUIDs (`uuidv4()`), and the process/platform values read by
`encodeMetadata`. -/
structure CursorEnv where
  msgUuid : Nat → String
  convUuid : String
  platform : String
  arch : String
  nodeVersion : String
  cwd : String
  nowIso : String

/-- `encodeMetadata()` (platform, arch, runtime version, cwd, timestamp). -/
def encodeMetadata (env : CursorEnv) : List Nat :=
  encodeField 1 2 (.str env.platform) ++
  encodeField 2 2 (.str env.arch) ++
  encodeField 3 2 (.str env.nodeVersion) ++
  encodeField 4 2 (.str env.cwd) ++
  encodeField 5 2 (.str env.nowIso)

/-- `encodeMessageId(messageId, role, summaryId)`. -/
def encodeMessageId (messageId : String) (role : Nat) (summaryId : Option String) :
    List Nat :=
  encodeField 1 2 (.str messageId) ++
  (match summaryId with
   | some sid => encodeField 2 2 (.str sid)
   | none => []) ++
  encodeField 3 0 (.nat role)

/-- One chat message as handed to `encodeRequest` (role already normalised to
"user"/"assistant" by the executor's message conversion). -/
structure CMessage where
  role : String
  content : String

/-- `encodeRequest(messages, modelName)` from cursorProtobuf.js: the inner
Request message with fields 1-54 in source order.  Per-message UUIDs come from
`env.msgUuid` indexed by position. -/
def encodeRequest (messages : List CMessage) (modelName : String)
    (env : CursorEnv) : List Nat :=
  let fm := messages.enum.map fun p =>
    let role : Nat := if p.2.role = "user" then 1 else 2
    (p.2.content, role, env.msgUuid p.1,
     if role = 1 then (some 1 : Option Nat) else none)
  (fm.map fun f => encodeField 1 2 (.bytes (encodeMessage f.1 f.2.1 f.2.2.1 f.2.2.2))).flatten ++
  encodeField 2 0 (.nat 1) ++
  encodeField 3 2 (.bytes (encodeInstruction "")) ++
  encodeField 4 0 (.nat 1) ++
  (if modelName ≠ "" then encodeField 5 2 (.bytes (encodeModel modelName)) else []) ++
  encodeField 8 2 (.str "") ++
  encodeField 13 0 (.nat 1) ++
  encodeField 15 2 (.bytes encodeCursorSetting) ++
  encodeField 19 0 (.nat 1) ++
  encodeField 23 2 (.str env.convUuid) ++
  encodeField 26 2 (.bytes (encodeMetadata env)) ++
  encodeField 27 0 (.nat 0) ++
  (fm.map fun f => encodeField 30 2 (.bytes (encodeMessageId f.2.2.1 f.2.1 none))).flatten ++
  encodeField 35 0 (.nat 0) ++
  encodeField 38 0 (.nat 0) ++
  encodeField 46 0 (.nat 1) ++
  encodeField 47 2 (.str "") ++
  encodeField 48 0 (.nat 0) ++
  encodeField 49 0 (.nat 0) ++
  encodeField 51 0 (.nat 0) ++
  encodeField 53 0 (.nat 1) ++
  encodeField 54 2 (.str "Ask")

/-- `buildChatRequest(messages, modelName)`: the outer field 1 wrapper. -/
def buildChatRequest (messages : List CMessage) (modelName : String)
    (env : CursorEnv) : List Nat :=
  encodeField 1 2 (.bytes (encodeRequest messages modelName env))

/-- The gzip collaborator (`zlib.gzipSync` / `zlib.gunzipSync`), abstract:
`gunzip` returns `none` when decompression throws. -/
structure GzipModel where
  gzip : List Nat → List Nat
  gunzip : List Nat → Option (List Nat)

/-- `wrapConnectRPCFrame(payload, compress)`: `[flags:u8][length:u32-be][payload]`
with `flags = 0x01` and a gzipped payload when `compress` is set.  The
big-endian length bytes are `(length >> k) & 0xFF`; for lengths below 2^31
(guaranteed by Node buffer limits) JS signed shifts agree with `>>> = / 2^k`. -/
def wrapConnectRPCFrame (gz : GzipModel) (payload : List Nat) (compress : Bool) :
    List Nat :=
  let finalPayload := if compress then gz.gzip payload else payload
  let flags := if compress then 1 else 0
  let length := finalPayload.length
  flags :: ((length >>> 24) % 256) :: ((length >>> 16) % 256) ::
    ((length >>> 8) % 256) :: (length % 256) :: finalPayload

/-- `generateCursorBody(messages, modelName)`: compress iff `messages.length >= 3`. -/
def generateCursorBody (gz : GzipModel) (messages : List CMessage)
    (modelName : String) (env : CursorEnv) : List Nat :=
  wrapConnectRPCFrame gz (buildChatRequest messages modelName env)
    (3 ≤ messages.length)

/-- Result of `parseConnectRPCFrame`. -/
structure ParsedFrame where
  flags : Nat
  length : Nat
  payload : List Nat
  consumed : Nat
  deriving DecidableEq, Repr

/-- `parseConnectRPCFrame(buffer)` from cursorProtobuf.js: `null` when fewer
than 5 bytes or the payload is truncated; decompresses when `flags === 0x01`,
falling back to the raw payload when gunzip throws.  The length is read
big-endian (`(b1 << 24) | ... | b4`; for first bytes below 128 — always the
case for lengths below 2^31 — JS's signed 32-bit `|`/`<<` agree with the
arithmetic sum used here). -/
def parseConnectRPCFrame (gz : GzipModel) : List Nat → Option ParsedFrame
  | b0 :: b1 :: b2 :: b3 :: b4 :: rest =>
    let length := b1 * 2 ^ 24 + b2 * 2 ^ 16 + b3 * 2 ^ 8 + b4
    if rest.length < length then none
    else
      let raw := rest.take length
      let payload := if b0 = 1 then
          match gz.gunzip raw with
          | some p => p
          | none => raw
        else raw
      some ⟨b0, length, payload, 5 + length⟩
  | _ => none

/-- Identity compression model used by the C6 witness (satisfies the gzip
inverse contract trivially). -/
def gzId : GzipModel := ⟨fun x => x, fun x => some x⟩

/-- Concrete codec environment for witnesses. -/
def envW : CursorEnv := ⟨fun _ => "u", "conv", "linux", "x64", "v20", "/", "t"⟩

/-- Two messages: below the compression threshold. -/
def msgsW2 : List CMessage := [⟨"user", "hi"⟩, ⟨"assistant", "ok"⟩]

/-- Four messages: at or above the compression threshold. -/
def msgsW4 : List CMessage :=
  [⟨"user", "a"⟩, ⟨"assistant", "b"⟩, ⟨"user", "c"⟩, ⟨"assistant", "d"⟩]

/-! ## C7: `generateChecksum` (open-sse/executors/cursor.js / cursorChecksum) -/

/-- JS `>>` on a non-negative 32-bit value: the shift count is reduced mod 32
(ECMA-262 ToUint32 of the right operand, `& 0x1F`). -/
def jsShr (a b : Nat) : Nat :=
  a >>> (b % 32)

/-- The byte array `generateChecksum` actually builds from
`timestamp = Math.floor(Date.now() / 1e6)`: each entry is
`(timestamp >> k) & 0xFF` under JS shift semantics (so `>> 40` is `>> 8` and
`>> 32` is `>> 0`). -/
def cursorTimestampBytes (timestamp : Nat) : List Nat :=
  [jsShr timestamp 40 % 256, jsShr timestamp 32 % 256, jsShr timestamp 24 % 256,
   jsShr timestamp 16 % 256, jsShr timestamp 8 % 256, timestamp % 256]

/-- The 6-byte big-endian encoding of the timestamp that the code's own
comment ("Create 6-byte big-endian array") and the specification describe. -/
def bigEndian6 (timestamp : Nat) : List Nat :=
  [timestamp / 2 ^ 40 % 256, timestamp / 2 ^ 32 % 256, timestamp / 2 ^ 24 % 256,
   timestamp / 2 ^ 16 % 256, timestamp / 2 ^ 8 % 256, timestamp % 256]

/-- The rolling Jyh cipher: `b[i] = ((b[i] XOR k) + (i % 256)) & 0xFF`, with
`k` initialised to 165 and updated to each output byte. -/
def jyhCipherAux : Nat → Nat → List Nat → List Nat
  | _, _, [] => []
  | k, i, b :: rest =>
    let b' := ((b ^^^ k) + i % 256) % 256
    b' :: jyhCipherAux b' (i + 1) rest

/-- The cipher applied from index 0 with initial key 165. -/
def jyhCipher (bytes : List Nat) : List Nat :=
  jyhCipherAux 165 0 bytes

/-- The URL-safe base64 alphabet used by `generateChecksum`. -/
def b64Alphabet : List Char :=
  "ABCDEFGHIJKLMNOPQRSTUVWXYZabcdefghijklmnopqrstuvwxyz0123456789-_".data

/-- `alphabet[v]` for the 6-bit values produced by the encoder. -/
def b64Char (v : Nat) : Char :=
  b64Alphabet.getD v 'A'

/-- The manual unpadded base64 loop of `generateChecksum` (3 input bytes →
4 output characters; 1 or 2 trailing bytes → 2 or 3 characters). -/
def jyhBase64 : List Nat → List Char
  | [] => []
  | [a] => [b64Char (a >>> 2), b64Char ((a &&& 3) <<< 4)]
  | [a, b] =>
    [b64Char (a >>> 2), b64Char (((a &&& 3) <<< 4) ||| (b >>> 4)),
     b64Char ((b &&& 15) <<< 2)]
  | a :: b :: c :: rest =>
    b64Char (a >>> 2) :: b64Char (((a &&& 3) <<< 4) ||| (b >>> 4)) ::
    b64Char (((b &&& 15) <<< 2) ||| (c >>> 6)) :: b64Char (c &&& 63) ::
    jyhBase64 rest

/-- `generateChecksum(machineId)` from cursor.js, as a function of the ambient
timestamp `Math.floor(Date.now() / 1e6)`: encode the cipher output and append
the machine id. -/
def generateChecksum (timestamp : Nat) (machineId : String) : String :=
  ⟨jyhBase64 (jyhCipher (cursorTimestampBytes timestamp))⟩ ++ machineId

/-- The checksum as the specification (and the code's own comments) describe
it: the same cipher and base64 applied to the true 6-byte big-endian timestamp. -/
def generateChecksumSpecBE (timestamp : Nat) (machineId : String) : String :=
  ⟨jyhBase64 (jyhCipher (bigEndian6 timestamp))⟩ ++ machineId

/-! ## C5: response decoding and tool-call reassembly -/

/-- A decoded protobuf field value: varint, length-delimited bytes (also used
for fixed32/fixed64 slices), or null for unknown wire types. -/
inductive PBValue where
  | vint (n : Nat) : PBValue
  | bytes (bs : List Nat) : PBValue
  | null : PBValue
  deriving DecidableEq, Repr

/-- `decodeVarint(buffer, offset)` from cursorProtobuf.js, on the remaining
byte list: accumulate 7-bit groups (`result |= (b & 0x7F) << shift`) until a
byte without the continuation bit.  Values ≥ 2^31 would wrap in JS's 32-bit
`|=`; the code only deals in values far below that. -/
def decodeVarintList : List Nat → Nat → Nat → Nat × List Nat
  | [], _, acc => (acc, [])
  | b :: rest, shift, acc =>
    let acc' := acc ||| ((b &&& 0x7F) <<< shift)
    if b &&& 0x80 = 0 then (acc', rest)
    else decodeVarintList rest (shift + 7) acc'

/-- `decodeField(buffer, offset)`: tag varint, then the value according to the
wire type; length-delimited slices clamp at the end of the buffer like JS
`slice`. -/
def decodeField (buffer : List Nat) : Option (Nat × Nat × PBValue × List Nat) :=
  match buffer with
  | [] => none
  | _ =>
    let tr := decodeVarintList buffer 0 0
    let fieldNum := tr.1 >>> 3
    let wireType := tr.1 &&& 7
    if wireType = 0 then
      let vr := decodeVarintList tr.2 0 0
      some (fieldNum, 0, .vint vr.1, vr.2)
    else if wireType = 2 then
      let lr := decodeVarintList tr.2 0 0
      some (fieldNum, 2, .bytes (lr.2.take lr.1), lr.2.drop lr.1)
    else if wireType = 1 then
      some (fieldNum, 1, .bytes (tr.2.take 8), tr.2.drop 8)
    else if wireType = 5 then
      some (fieldNum, 5, .bytes (tr.2.take 4), tr.2.drop 4)
    else
      some (fieldNum, wireType, .null, tr.2)

/-- The `while (pos < data.length)` loop of `decodeMessage`, fuelled by the
buffer length (every field consumes at least one byte). -/
def decodeMessageFuel : Nat → List Nat → List (Nat × Nat × PBValue)
  | 0, _ => []
  | fuel + 1, buffer =>
    match decodeField buffer with
    | none => []
    | some (f, w, v, rest) => (f, w, v) :: decodeMessageFuel fuel rest

/-- `decodeMessage(data)`: all fields in encounter order (the JS `Map` of
fieldNum → entries preserves this order per field number). -/
def decodeMessage (data : List Nat) : List (Nat × Nat × PBValue) :=
  decodeMessageFuel data.length data

/-- Strict UTF-8 decoding, fuelled by the byte count. -/
def utf8DecodeFuel : Nat → List Nat → Option (List Char)
  | 0, [] => some []
  | 0, _ :: _ => none
  | _ + 1, [] => some []
  | fuel + 1, b :: rest =>
    if b < 0x80 then
      (utf8DecodeFuel fuel rest).map fun cs => Char.ofNat b :: cs
    else if 0xC2 ≤ b ∧ b ≤ 0xDF then
      match rest with
      | b1 :: rest2 =>
        if 0x80 ≤ b1 ∧ b1 ≤ 0xBF then
          (utf8DecodeFuel fuel rest2).map fun cs =>
            Char.ofNat ((b - 0xC0) * 64 + (b1 - 0x80)) :: cs
        else none
      | [] => none
    else if 0xE0 ≤ b ∧ b ≤ 0xEF then
      match rest with
      | b1 :: b2 :: rest3 =>
        if 0x80 ≤ b1 ∧ b1 ≤ 0xBF ∧ 0x80 ≤ b2 ∧ b2 ≤ 0xBF then
          (utf8DecodeFuel fuel rest3).map fun cs =>
            Char.ofNat ((b - 0xE0) * 4096 + (b1 - 0x80) * 64 + (b2 - 0x80)) :: cs
        else none
      | _ => none
    else if 0xF0 ≤ b ∧ b ≤ 0xF4 then
      match rest with
      | b1 :: b2 :: b3 :: rest4 =>
        if 0x80 ≤ b1 ∧ b1 ≤ 0xBF ∧ 0x80 ≤ b2 ∧ b2 ≤ 0xBF ∧ 0x80 ≤ b3 ∧ b3 ≤ 0xBF then
          (utf8DecodeFuel fuel rest4).map fun cs =>
            Char.ofNat ((b - 0xF0) * 262144 + (b1 - 0x80) * 4096 +
              (b2 - 0x80) * 64 + (b3 - 0x80)) :: cs
        else none
      | _ => none
    else none

/-- `new TextDecoder().decode(bytes)`: never throws; invalid sequences yield
replacement characters (modelled coarsely as a single U+FFFD — the claims only
exercise the valid-UTF-8 path and the "nonempty" test). -/
def jsTextDecode (bs : List Nat) : String :=
  match utf8DecodeFuel bs.length bs with
  | some cs => ⟨cs⟩
  | none => "�"

/-- A tool-call event as the executor's reassembly loop consumes it
(`result.toolCall` with `id`, `function.name`, `function.arguments`, `isLast`). -/
structure ToolCallEvent where
  id : String
  name : String
  arguments : String
  isLast : Bool
  deriving DecidableEq, Repr

/-- The record `extractTextFromResponse` returns; the executor reads `.text`,
`.error` and `.toolCall` from it. -/
structure ExtractResult where
  text : Option String
  error : Option String
  toolCall : Option ToolCallEvent
  deriving DecidableEq, Repr

/-- The inner loop of `extractTextFromResponse` over a decoded
`StreamUnifiedChatResponse`: the first nonempty text in a field-1
length-delimited entry. -/
def textFromNested (nested : List (Nat × Nat × PBValue)) : Option String :=
  nested.findSome? fun e =>
    match e with
    | (1, 2, .bytes nv) =>
      let text := jsTextDecode nv
      if text ≠ "" then some text else none
    | _ => none

/-- `extractTextFromResponse(payload)` from cursorProtobuf.js: decode the
payload, look only at field 2 (`StreamUnifiedChatResponse`) entries and return
the first nonempty nested field-1 text.  Field 1 (`ClientSideToolV2Call`) is
explicitly skipped ("skip for now" in the source), and no branch ever sets
`error` or `toolCall`. -/
def extractTextFromResponse (payload : List Nat) : ExtractResult :=
  let fields := decodeMessage payload
  let found := fields.findSome? fun e =>
    match e with
    | (2, 2, .bytes value) => textFromNested (decodeMessage value)
    | _ => none
  match found with
  | some t => ⟨some t, none, none⟩
  | none => ⟨none, none, none⟩

/-- One accumulating entry of the executor's `toolCallsMap`. -/
structure ToolAcc where
  name : String
  arguments : String
  isLast : Bool
  deriving DecidableEq, Repr

/-- The map update of the executor's tool-call branch (cursor.js lines
349-357): accumulate arguments for a known id, or insert a fresh entry. -/
def toolCallMapStep (map : List (String × ToolAcc)) (tc : ToolCallEvent) :
    List (String × ToolAcc) :=
  if (map.find? fun p => p.1 = tc.id).isSome then
    map.map fun p =>
      if p.1 = tc.id then (p.1, ⟨p.2.name, p.2.arguments ++ tc.arguments, tc.isLast⟩)
      else p
  else map ++ [(tc.id, ⟨tc.name, tc.arguments, tc.isLast⟩)]

/-- One iteration of the tool-call branch of
`CursorExecutor.transformProtobufToJSON` (cursor.js lines 346-371): extend or
insert the map entry for the event's id, and on `isLast` push a finalised
`{id, name, arguments}` snapshot. -/
def toolCallStep
    (st : List (String × ToolAcc) × List (String × String × String))
    (tc : ToolCallEvent) :
    List (String × ToolAcc) × List (String × String × String) :=
  (toolCallMapStep st.1 tc,
   if tc.isLast then
     match (toolCallMapStep st.1 tc).find? fun p => p.1 = tc.id with
     | some p => st.2 ++ [(p.1, p.2.name, p.2.arguments)]
     | none => st.2
   else st.2)

/-- The end-of-stream finalisation (cursor.js lines 379-392): append every map
entry whose id is not already in the finalised array. -/
def finalizeToolCalls
    (st : List (String × ToolAcc) × List (String × String × String)) :
    List (String × String × String) :=
  st.2 ++ (st.1.filter fun p => (st.2.find? fun q => q.1 = p.1).isNone).map
    fun p => (p.1, p.2.name, p.2.arguments)

/-- The finalised tool calls produced by the executor's reassembly for a
stream of tool-call events. -/
def accumulateToolCalls (events : List ToolCallEvent) :
    List (String × String × String) :=
  finalizeToolCalls (events.foldl toolCallStep ([], []))

/-- Well-formed event stream: a chunk marked `isLast` is the final chunk for
its id (no earlier event shares an id with a later one unless it is not last). -/
abbrev WFToolEvents (events : List ToolCallEvent) : Prop :=
  events.Pairwise fun a b => a.id = b.id → a.isLast = false

/-- The function name of the first chunk for an id. -/
def firstNameFor (events : List ToolCallEvent) (id : String) : Option String :=
  (events.find? fun e => e.id = id).map fun e => e.name

/-- The concatenation, in arrival order, of the argument chunks for an id. -/
def concatArgs (events : List ToolCallEvent) (id : String) : String :=
  ((events.filter fun e => e.id = id).map fun e => e.arguments).foldl (· ++ ·) ""

/-- A concrete response payload holding a field-1 (`ClientSideToolV2Call`)
entry: a tool-call id in the nested message. -/
def innerToolCall : List Nat := encodeField 1 2 (.str "id1")

/-- The outer payload: field 1, length-delimited, around `innerToolCall`. -/
def cexToolPayload : List Nat := encodeField 1 2 (.bytes innerToolCall)

/-- A two-chunk tool-call stream for one id. -/
def tcEv1 : ToolCallEvent := ⟨"call1", "getW", "ab", false⟩

/-- The closing chunk of the stream. -/
def tcEv2 : ToolCallEvent := ⟨"call1", "getW", "cd", true⟩

/-- The concrete event stream used in the reassembly witness. -/
def tcEvents : List ToolCallEvent := [tcEv1, tcEv2]

/-! ## Theorems -/

/-- **C1.** The error classifier follows the specified decision order for every
input: message-text patterns before status codes, first match wins, with the
exponential-backoff rule for the rate-limit keywords and status 429, the
per-status cooldowns for 401/402/403/404, the transient cooldown for
406/408/500/502/503/504 and for everything else.  `checkFallbackError` is a
total Lean function, hence deterministic and never-throwing, and it agrees with
the specification's decision list on every input. -/
theorem checkFallbackError_follows_spec_order (cd : CooldownMs) (bc : BackoffConfig)
    (status : Nat) (errorText : String) (backoffLevel : Nat) :
    checkFallbackError cd bc status errorText backoffLevel =
      classifySpec cd bc status errorText backoffLevel := by
  unfold checkFallbackError classifySpec checkFallbackStatus hasRateLimitKeyword
      getQuotaCooldown
  by_cases h : errorText = "" <;> simp [h]

theorem checkFallbackError_rateLimit (cd : CooldownMs) (bc : BackoffConfig)
    (status : Nat) (errorText : String) (lvl : Nat)
    (h : isRateLimitTrigger status errorText) :
    checkFallbackError cd bc status errorText lvl =
      ⟨true, min (bc.base * 2 ^ lvl) bc.max, some (min (lvl + 1) bc.maxLevel)⟩ := by
  rcases h with ⟨hne, hnc, hrna, hrl⟩ | ⟨h429, hcase⟩
  · simp [checkFallbackError, hne, hnc, hrna, hrl, getQuotaCooldown]
  · rcases hcase with he | ⟨hnc, hrna, hrl⟩
    · simp [checkFallbackError, he, h429, checkFallbackStatus, getQuotaCooldown]
    · by_cases hne : errorText = ""
      · simp [checkFallbackError, hne, h429, checkFallbackStatus, getQuotaCooldown]
      · simp [checkFallbackError, hne, hnc, hrna, hrl, h429, checkFallbackStatus,
          getQuotaCooldown]

theorem jsOrNat_some_zero (n : Nat) : jsOrNat (some n) 0 = n := by
  cases n <;> rfl

theorem markAccountUnavailable_rateLimit_level (cd : CooldownMs) (bc : BackoffConfig)
    (status : Nat) (errorText : String) (now : Nat) (c : Connection)
    (h : isRateLimitTrigger status errorText) :
    connBackoffLevel (rlFailStepConn cd bc status errorText now c) =
      min (connBackoffLevel c + 1) bc.maxLevel ∧
    (markAccountUnavailable cd bc [c] c.id status errorText now).1.cooldownMs =
      min (bc.base * 2 ^ connBackoffLevel c) bc.max := by
  have hcf := checkFallbackError_rateLimit cd bc status errorText
    (jsOrNat (Connection.backoffLevel c) 0) h
  have hfind : List.find? (fun c' => c'.id = c.id) [c] = some c := by
    simp
  constructor
  · unfold rlFailStepConn markAccountUnavailable
    simp only [hfind, Option.some_bind, hcf, Bool.not_true, Bool.false_eq_true,
      if_false, applyMarkUnavailable, List.map_cons, List.map_nil, if_pos rfl,
      decide_True, if_true, List.headD_cons, connBackoffLevel, Option.getD_some,
      jsOrNat_some_zero]
  · unfold markAccountUnavailable
    simp only [hfind, Option.some_bind, hcf, Bool.not_true, Bool.false_eq_true,
      if_false, connBackoffLevel]

/-- **C2.** For every sequence of consecutive rate-limit failures on one
connection (body containing a rate-limit keyword, or status 429), starting from
a reset connection (`backoffLevel` absent or 0): the cooldown reported at the
`k+1`-st failure equals `min(base · 2^n, max)` where `n = min k maxLevel` is the
stored backoff level at that point, the classifier returns
`newBackoffLevel = min(n+1, maxLevel)` at every level `n`, and the stored
`backoffLevel` is non-decreasing and never exceeds `maxLevel`. -/
theorem rate_limit_backoff_sequence (cd : CooldownMs) (bc : BackoffConfig)
    (status : Nat) (errorText : String) (now : Nat) (c : Connection)
    (htrig : isRateLimitTrigger status errorText)
    (hreset : connBackoffLevel c = 0) :
    (∀ lvl, checkFallbackError cd bc status errorText lvl =
      ⟨true, min (bc.base * 2 ^ lvl) bc.max, some (min (lvl + 1) bc.maxLevel)⟩) ∧
    (∀ k, connBackoffLevel (rlFailures cd bc status errorText now c k) =
      min k bc.maxLevel) ∧
    (∀ k, connBackoffLevel (rlFailures cd bc status errorText now c k) ≤
      connBackoffLevel (rlFailures cd bc status errorText now c (k + 1))) ∧
    (∀ k, connBackoffLevel (rlFailures cd bc status errorText now c (k + 1)) ≤
      bc.maxLevel) ∧
    (∀ k, rlCooldownAt cd bc status errorText now c k =
      min (bc.base * 2 ^ min k bc.maxLevel) bc.max) := by
  have hlevel : ∀ k, connBackoffLevel (rlFailures cd bc status errorText now c k) =
      min k bc.maxLevel := by
    intro k
    induction k with
    | zero => simpa [rlFailures] using hreset
    | succ k ih =>
      have hstep := (markAccountUnavailable_rateLimit_level cd bc status errorText now
        (rlFailures cd bc status errorText now c k) htrig).1
      rw [rlFailures, hstep, ih]
      omega
  refine ⟨fun lvl => checkFallbackError_rateLimit cd bc status errorText lvl htrig,
    hlevel, ?_, ?_, ?_⟩
  · intro k; rw [hlevel, hlevel]; omega
  · intro k; rw [hlevel]; omega
  · intro k
    have := (markAccountUnavailable_rateLimit_level cd bc status errorText now
      (rlFailures cd bc status errorText now c k) htrig).2
    rw [rlCooldownAt, this, hlevel]

/-- Witness for C2: a concrete rate-limited connection at level 0, body
`"Rate limit exceeded"`, status 429, with `base = 1000`, `max = 120000`,
`maxLevel = 7` (scenario S3): the first failure reports cooldown `base` and
stores level 1, the second reports `2 · base` and stores level 2. -/
theorem rate_limit_backoff_sequence_witness :
    rlCooldownAt cdW bcW 429 "Rate limit exceeded" 0 connW 0 = 1000 ∧
    rlCooldownAt cdW bcW 429 "Rate limit exceeded" 0 connW 1 = 2000 ∧
    connBackoffLevel (rlFailures cdW bcW 429 "Rate limit exceeded" 0 connW 1) = 1 ∧
    connBackoffLevel (rlFailures cdW bcW 429 "Rate limit exceeded" 0 connW 2) = 2 := by
  have h := rate_limit_backoff_sequence cdW bcW 429 "Rate limit exceeded" 0 connW
    (Or.inl (by refine ⟨by decide, by decide, by decide, by decide⟩))
    (by decide)
  refine ⟨?_, ?_, ?_, ?_⟩
  · rw [h.2.2.2.2 0]; decide
  · rw [h.2.2.2.2 1]; decide
  · rw [h.2.1 1]; decide
  · rw [h.2.1 2]; decide

/-- **C10 (implicit).** For every input — all statuses including 2xx and 0, and
any body text — `checkFallbackError` returns `shouldFallback = true` (every
branch, including the final default, sets it).  Consequently
`markAccountUnavailable` never returns `shouldFallback = false`, and the
dispatch loop's branch that surfaces the error response without rotating to the
next account is unreachable. -/
theorem classifier_always_requests_fallback (cd : CooldownMs) (bc : BackoffConfig)
    (status : Nat) (errorText : String) (backoffLevel : Nat)
    (store : List Connection) (connectionId : Nat) (now : Nat) :
    (checkFallbackError cd bc status errorText backoffLevel).shouldFallback = true ∧
    (markAccountUnavailable cd bc store connectionId status errorText now).1.shouldFallback
      = true ∧
    dispatchOnFailure cd bc store connectionId status errorText now = .rotate := by
  have hclass : ∀ lvl,
      (checkFallbackError cd bc status errorText lvl).shouldFallback = true := by
    intro lvl
    simp only [checkFallbackError, checkFallbackStatus]
    split_ifs <;> rfl
  have hmark :
      (markAccountUnavailable cd bc store connectionId status errorText now).1.shouldFallback
        = true := by
    unfold markAccountUnavailable
    simp [hclass]
  exact ⟨hclass backoffLevel, hmark, by unfold dispatchOnFailure; simp [hmark]⟩

/-- **C9 counterexample.** The claim says `clearAccountError` is a no-op
*exactly* when the snapshot shows `testStatus == "active"` with no `lastError`
and no `rateLimitedUntil`; but on a snapshot with `testStatus = "error"` (and
no lastError / rateLimitedUntil) the code performs no write even though
`testStatus ≠ "active"` — the code tests `testStatus === "unavailable"`, not
`!== "active"`. -/
theorem clearAccountError_claim_counterexample :
    clearAccountError connErrStatusW = none ∧
    connErrStatusW.testStatus ≠ "active" ∧
    connErrStatusW.lastError = none ∧ connErrStatusW.rateLimitedUntil = none := by
  refine ⟨by decide, by decide, rfl, rfl⟩

/-- **C9 (amended).** `clearAccountError(id, snapshot)` is a no-op (no store
write) exactly when the snapshot shows `testStatus ≠ "unavailable"`, a falsy
`lastError` and no `rateLimitedUntil`; otherwise it writes exactly the patch
`{testStatus: "active", lastError: null, lastErrorAt: null,
rateLimitedUntil: null, backoffLevel: 0}`, leaving every other connection field
unchanged. -/
theorem clearAccountError_noop_iff_and_frame (c : Connection) :
    (clearAccountError c = none ↔
      (c.testStatus ≠ "unavailable" ∧ jsTruthyStr c.lastError = false ∧
       c.rateLimitedUntil = none)) ∧
    (∀ c', clearAccountError c = some c' →
      c'.testStatus = "active" ∧ c'.lastError = none ∧ c'.lastErrorAt = none ∧
      c'.rateLimitedUntil = none ∧ c'.backoffLevel = some 0 ∧
      c'.id = c.id ∧ c'.provider = c.provider ∧ c'.priority = c.priority ∧
      c'.isActive = c.isActive ∧ c'.apiKey = c.apiKey ∧
      c'.accessToken = c.accessToken ∧ c'.refreshToken = c.refreshToken ∧
      c'.expiresAt = c.expiresAt ∧ c'.errorCode = c.errorCode ∧
      c'.lastUsedAt = c.lastUsedAt ∧
      c'.consecutiveUseCount = c.consecutiveUseCount) := by
  constructor
  · unfold clearAccountError
    by_cases h1 : c.testStatus = "unavailable" <;>
      by_cases h2 : jsTruthyStr c.lastError <;>
      rcases h3 : c.rateLimitedUntil with _ | u <;>
      simp [h1, h2, h3]
  · intro c' hc'
    simp only [clearAccountError] at hc'
    split at hc'
    · cases hc'
      simp [applyClearError]
    · cases hc'

/-- Witness for C9: on a concrete errored snapshot the cleared record has
exactly the five patched fields reset and keeps `errorCode`, tokens, priority
and usage counters unchanged. -/
theorem clearAccountError_noop_iff_and_frame_witness :
    (clearAccountError connUnavailW).isSome = true ∧
    (applyClearError connUnavailW).testStatus = "active" ∧
    (applyClearError connUnavailW).errorCode = some 429 ∧
    (applyClearError connUnavailW).accessToken = some "tok" ∧
    (applyClearError connUnavailW).backoffLevel = some 0 := by
  have h := (clearAccountError_noop_iff_and_frame connUnavailW).2
    (applyClearError connUnavailW) (by decide)
  exact ⟨by decide, h.1, by rw [h.2.2.2.2.2.2.2.2.2.2.2.2.2.1]; decide, by decide,
    h.2.2.2.2.1⟩

theorem sortHead_mem (cmp : Connection → Connection → Int) :
    ∀ (t : List Connection) (h : Connection), sortHead cmp h t ∈ h :: t := by
  intro t
  induction t with
  | nil => intro h; simp [sortHead]
  | cons x xs ih =>
    intro h
    have hstep : sortHead cmp h (x :: xs) =
        sortHead cmp (if cmp x h < 0 then x else h) xs := rfl
    rw [hstep]
    have hmem := ih (if cmp x h < 0 then x else h)
    rcases List.mem_cons.1 hmem with heq | hmem2
    · rw [heq]
      by_cases hc : cmp x h < 0 <;> simp [hc]
    · simp [List.mem_cons.2 (Or.inr (List.mem_cons.2 (Or.inr hmem2)))]

theorem sortHead_key_le (f : Connection → Nat) :
    ∀ (t : List Connection) (h : Connection) (c : Connection), c ∈ h :: t →
      f (sortHead (fun a b => (f a : Int) - (f b : Int)) h t) ≤ f c := by
  intro t
  induction t with
  | nil =>
    intro h c hc
    rw [List.mem_singleton.1 hc]
    exact le_rfl
  | cons x xs ih =>
    intro h c hc
    have hstep : sortHead (fun a b => (f a : Int) - (f b : Int)) h (x :: xs) =
        sortHead (fun a b => (f a : Int) - (f b : Int))
          (if (f x : Int) - (f h : Int) < 0 then x else h) xs := rfl
    rw [hstep]
    set h' : Connection := if (f x : Int) - (f h : Int) < 0 then x else h with hh'
    have hminh : f h' ≤ f h ∧ f h' ≤ f x := by
      by_cases hlt : (f x : Int) - (f h : Int) < 0 <;> rw [hh'] <;> simp [hlt] <;> omega
    have hself := ih h' h' (List.mem_cons_self _ _)
    rcases List.mem_cons.1 hc with heq | hc2
    · rw [heq] at *; omega
    · rcases List.mem_cons.1 hc2 with heq | hc3
      · rw [heq] at *; omega
      · exact ih h' c (List.mem_cons_of_mem _ hc3)

theorem earliestStep_isSome (now : Nat) (acc : Option Nat) (c : Connection)
    (h : acc.isSome) : (earliestStep now acc c).isSome := by
  unfold earliestStep
  rcases acc with _ | a
  · cases h
  · rcases c.rateLimitedUntil with _ | u
    · exact h
    · dsimp only
      split
      · exact h
      · split <;> rfl

theorem earliest_foldl_isSome (now : Nat) :
    ∀ (l : List Connection) (acc : Option Nat), acc.isSome →
      (l.foldl (earliestStep now) acc).isSome := by
  intro l
  induction l with
  | nil => intro acc h; exact h
  | cons c cs ih =>
    intro acc h
    exact ih (earliestStep now acc c) (earliestStep_isSome now acc c h)

theorem earliest_foldl_spec (now : Nat) :
    ∀ (l : List Connection) (acc : Option Nat) (e : Nat),
      (∀ a, acc = some a → now < a) →
      l.foldl (earliestStep now) acc = some e →
      now < e ∧
      (acc = some e ∨ ∃ c ∈ l, c.rateLimitedUntil = some e) ∧
      (∀ a, acc = some a → e ≤ a) ∧
      (∀ c ∈ l, ∀ u, c.rateLimitedUntil = some u → now < u → e ≤ u) := by
  intro l
  induction l with
  | nil =>
    intro acc e hacc hfold
    simp only [List.foldl_nil] at hfold
    refine ⟨hacc e hfold, Or.inl hfold, fun a ha => ?_, fun c hc => absurd hc (by simp)⟩
    rw [hfold] at ha
    injection ha with h
    omega
  | cons c cs ih =>
    intro acc e hacc hfold
    simp only [List.foldl_cons] at hfold
    have hstep : earliestStep now acc c = acc ∨
        (∃ u, c.rateLimitedUntil = some u ∧ now < u ∧ earliestStep now acc c = some u ∧
          (∀ a, acc = some a → u ≤ a)) := by
      unfold earliestStep
      rcases c.rateLimitedUntil with _ | u
      · exact Or.inl rfl
      · dsimp only
        by_cases hu : u ≤ now
        · simp [hu]
        · rcases acc with _ | a
          · exact Or.inr ⟨u, rfl, by omega, by simp [hu], by simp⟩
          · by_cases hlt : u < a
            · refine Or.inr ⟨u, rfl, by omega, by simp [hu, hlt], ?_⟩
              intro a' ha'
              cases ha'
              omega
            · simp [hu, hlt]
    have hacc' : ∀ a, earliestStep now acc c = some a → now < a := by
      rcases hstep with heq | ⟨u, _, hu, heq, _⟩
      · rw [heq]; exact hacc
      · rw [heq]; intro a ha; cases ha; omega
    obtain ⟨h1, h2, h3, h4⟩ := ih (earliestStep now acc c) e hacc' hfold
    refine ⟨h1, ?_, ?_, ?_⟩
    · rcases h2 with h2 | ⟨c', hc', hu'⟩
      · rcases hstep with heq | ⟨u, hcu, _, heq, _⟩
        · exact Or.inl (heq ▸ h2)
        · rw [heq] at h2
          cases h2
          exact Or.inr ⟨c, List.mem_cons_self _ _, hcu⟩
      · exact Or.inr ⟨c', List.mem_cons_of_mem _ hc', hu'⟩
    · intro a ha
      rcases hstep with heq | ⟨u, _, _, heq, hle⟩
      · exact h3 a (heq.trans ha)
      · have := h3 u heq
        have := hle a ha
        omega
    · intro c' hc' u hu hnow
      rcases List.mem_cons.1 hc' with heq | hmem
      · -- the head connection itself
        rw [heq] at hu
        rcases hstep with hacceq | ⟨u', hcu', _, heq2, _⟩
        · -- the step kept the accumulator untouched
          rcases hacc2 : acc with _ | a
          · -- impossible: a future until over an empty accumulator updates it
            exfalso
            rw [hacc2] at hacceq
            unfold earliestStep at hacceq
            rw [hu] at hacceq
            simp [show ¬ u ≤ now by omega] at hacceq
          · have hea := h3 a (hacceq.trans hacc2)
            have hau : a ≤ u := by
              by_contra hcon
              push_neg at hcon
              have hupd : earliestStep now acc c = some u := by
                unfold earliestStep
                rw [hu, hacc2]
                simp [show ¬ u ≤ now by omega, hcon]
              rw [hacceq, hacc2] at hupd
              injection hupd with h'
              omega
            omega
        · rw [hu] at hcu'
          cases hcu'
          exact h3 u heq2
      · exact h4 c' hmem u hu hnow

theorem isAccountUnavailable_true_iff (u : Option Nat) (now : Nat) :
    isAccountUnavailable u now = true ↔ ∃ v, u = some v ∧ now < v := by
  rcases u with _ | v <;> simp [isAccountUnavailable]


theorem selectStrategy_selected (settings : Settings) (connections : List Connection)
    (now : Nat) (a : Connection) (rest : List Connection) :
    ∃ c store', selectStrategy settings connections now a rest = (.selected c, store') ∧
      c ∈ a :: rest := by
  simp only [selectStrategy]
  split_ifs <;>
    first
      | exact ⟨_, _, rfl, sortHead_mem cmpByRecency rest a⟩
      | exact ⟨_, _, rfl, sortHead_mem cmpByOldest rest a⟩
      | exact ⟨_, _, rfl, List.mem_cons_self _ _⟩

theorem getProviderCredentials_selected_available
    (connections allConnections : List Connection) (settings : Settings)
    (excludeConnectionId : Option Nat) (now : Nat) (c : Connection)
    (store' : List Connection)
    (h : getProviderCredentials connections allConnections settings
      excludeConnectionId now = (.selected c, store')) :
    isAccountUnavailable c.rateLimitedUntil now = false := by
  rcases connections with _ | ⟨c0, cs⟩
  · simp only [getProviderCredentials] at h
    split at h <;> try split at h
    all_goals simp_all
  · simp only [getProviderCredentials] at h
    split at h
    case _ heq =>
      split at h <;> try split at h
      all_goals simp_all
    case _ a rest heq =>
      obtain ⟨c', s', heq', hmem⟩ := selectStrategy_selected settings (c0 :: cs) now a rest
      rw [heq'] at h
      rw [Prod.mk.injEq] at h
      obtain ⟨h1, -⟩ := h
      injection h1 with h1
      subst h1
      rw [← heq] at hmem
      have := (List.mem_filter.1 hmem).2
      simp only [Bool.and_eq_true, Bool.not_eq_true'] at this
      exact this.2

theorem sortHead_until_le (t : List Connection) (h c : Connection) (hc : c ∈ h :: t) :
    (sortHead cmpByUntil h t).rateLimitedUntil.getD 0 ≤ c.rateLimitedUntil.getD 0 :=
  sortHead_key_le (fun x => x.rateLimitedUntil.getD 0) t h c hc

theorem getProviderCredentials_all_cooldown
    (connections allConnections : List Connection) (settings : Settings)
    (excludeConnectionId : Option Nat) (now : Nat)
    (hne : connections ≠ [])
    (hall : ∀ c ∈ connections, isAccountUnavailable c.rateLimitedUntil now = true) :
    ∃ e le lc,
      getProviderCredentials connections allConnections settings excludeConnectionId now =
        (.allRateLimited e le lc, connections) ∧
      now < e ∧
      (∀ c ∈ connections, ∀ u, c.rateLimitedUntil = some u → e ≤ u) ∧
      ∃ c ∈ connections, c.rateLimitedUntil = some e ∧
        le = jsOrNullStr c.lastError ∧ lc = jsOrNullNat c.errorCode := by
  cases connections with
  | nil => exact absurd rfl hne
  | cons c0 cs =>
    -- every active connection is filtered out
    have hfilter : List.filter (fun c =>
        !(excludeConnectionId.isSome && excludeConnectionId = some c.id) &&
        !isAccountUnavailable c.rateLimitedUntil now) (c0 :: cs) = [] := by
      rw [List.filter_eq_nil_iff]
      intro a ha
      simp [hall a ha]
    -- the earliest future rateLimitedUntil exists
    have hsome0 : (earliestStep now none c0).isSome := by
      obtain ⟨v, hv, hnv⟩ := (isAccountUnavailable_true_iff _ _).1
        (hall c0 (List.mem_cons_self _ _))
      unfold earliestStep
      rw [hv]
      simp [show ¬ v ≤ now by omega]
    have hsome : (getEarliestRateLimitedUntil (c0 :: cs) now).isSome := by
      unfold getEarliestRateLimitedUntil
      rw [List.foldl_cons]
      exact earliest_foldl_isSome now cs _ hsome0
    obtain ⟨e, he⟩ := Option.isSome_iff_exists.1 hsome
    have hefold : List.foldl (earliestStep now) none (c0 :: cs) = some e := he
    obtain ⟨h1, h2, -, h4⟩ := earliest_foldl_spec now (c0 :: cs) none e (by simp) hefold
    have hmin : ∀ c ∈ c0 :: cs, ∀ u, c.rateLimitedUntil = some u → e ≤ u := by
      intro c hc u hu
      obtain ⟨v, hv, hnv⟩ := (isAccountUnavailable_true_iff _ _).1 (hall c hc)
      rw [hu] at hv
      injection hv with hv
      subst hv
      exact h4 c hc u hu hnv
    -- every connection passes the rateLimitedConns filter
    have hfilter2 : List.filter (fun c =>
        c.rateLimitedUntil.isSome && isAccountUnavailable c.rateLimitedUntil now)
        (c0 :: cs) = c0 :: cs := by
      rw [List.filter_eq_self]
      intro a ha
      obtain ⟨v, hv, hnv⟩ := (isAccountUnavailable_true_iff _ _).1 (hall a ha)
      simp [hv, isAccountUnavailable]
      omega
    -- the sorted head attains the earliest value
    have hmmem := sortHead_mem cmpByUntil cs c0
    obtain ⟨vm, hvm, -⟩ := (isAccountUnavailable_true_iff _ _).1
      (hall (sortHead cmpByUntil c0 cs) hmmem)
    have hattain : (sortHead cmpByUntil c0 cs).rateLimitedUntil = some e := by
      rcases h2 with h2 | ⟨ca, hca, hua⟩
      · cases h2
      · have hle1 : e ≤ vm := hmin _ hmmem vm hvm
        have hle2 : (sortHead cmpByUntil c0 cs).rateLimitedUntil.getD 0 ≤
            ca.rateLimitedUntil.getD 0 := sortHead_until_le cs c0 ca hca
        rw [hvm, hua] at hle2
        simp only [Option.getD_some] at hle2
        rw [hvm]
        congr 1
        omega
    refine ⟨e, jsOrNullStr (sortHead cmpByUntil c0 cs).lastError,
      jsOrNullNat (sortHead cmpByUntil c0 cs).errorCode, ?_, h1, hmin,
      sortHead cmpByUntil c0 cs, hmmem, hattain, rfl, rfl⟩
    simp only [getProviderCredentials, hfilter, hfilter2]
    rw [show getEarliestRateLimitedUntil (c0 :: cs) now = some e from he]

/-- **C3.** For every provider and every set of stored connections, account
selection never returns a connection whose `rateLimitedUntil` lies strictly in
the future at selection time (such connections are filtered out); and when
every active connection for the provider is in cooldown, selection returns the
`AllRateLimited` sentinel — carrying the earliest future `rateLimitedUntil`
and the `lastError` / `errorCode` of the connection attaining it (with JS `||`
collapsing empty/zero values to null) — rather than any connection. -/
theorem selection_respects_cooldowns
    (connections allConnections : List Connection) (settings : Settings)
    (excludeConnectionId : Option Nat) (now : Nat) :
    (∀ c store',
      getProviderCredentials connections allConnections settings
        excludeConnectionId now = (.selected c, store') →
      isAccountUnavailable c.rateLimitedUntil now = false) ∧
    (connections ≠ [] →
     (∀ c ∈ connections, isAccountUnavailable c.rateLimitedUntil now = true) →
     ∃ e le lc,
       getProviderCredentials connections allConnections settings
         excludeConnectionId now = (.allRateLimited e le lc, connections) ∧
       now < e ∧
       (∀ c ∈ connections, ∀ u, c.rateLimitedUntil = some u → e ≤ u) ∧
       ∃ c ∈ connections, c.rateLimitedUntil = some e ∧
         le = jsOrNullStr c.lastError ∧ lc = jsOrNullNat c.errorCode) :=
  ⟨fun c store' h => getProviderCredentials_selected_available connections
      allConnections settings excludeConnectionId now c store' h,
   fun hne hall => getProviderCredentials_all_cooldown connections allConnections
      settings excludeConnectionId now hne hall⟩

/-- Witness for C3: with one fresh connection the selection returns it and it
is not in cooldown; with two connections both in cooldown at `now = 50` the
sentinel carries the earlier recovery instant 70 and that connection's error
info. -/
theorem selection_respects_cooldowns_witness :
    isAccountUnavailable connW.rateLimitedUntil 50 = false ∧
    (∃ e le lc,
      getProviderCredentials [connRL1, connRL2] [connRL1, connRL2]
        ⟨"fill-first", none⟩ none 50 = (.allRateLimited e le lc, [connRL1, connRL2]) ∧
      50 < e ∧
      (∀ c ∈ [connRL1, connRL2], ∀ u, c.rateLimitedUntil = some u → e ≤ u) ∧
      ∃ c ∈ [connRL1, connRL2], c.rateLimitedUntil = some e ∧
        le = jsOrNullStr c.lastError ∧ lc = jsOrNullNat c.errorCode) := by
  constructor
  · exact (selection_respects_cooldowns [connW] [connW] ⟨"fill-first", none⟩
      none 50).1 connW [connW] (by decide)
  · exact (selection_respects_cooldowns [connRL1, connRL2] [connRL1, connRL2]
      ⟨"fill-first", none⟩ none 50).2 (by decide) (by decide)

theorem sortHead_recency_eq (C : Connection) (t : Nat) :
    ∀ (l : List Connection) (h : Connection), C ∈ h :: l →
      C.lastUsedAt = some t →
      (∀ d ∈ h :: l, ∀ s, d.lastUsedAt = some s → s ≤ t) →
      (∀ d ∈ h :: l, d.lastUsedAt = some t → d = C) →
      sortHead cmpByRecency h l = C := by
  intro l
  induction l with
  | nil =>
    intro h hC _ _ _
    simpa [sortHead] using (List.mem_singleton.1 hC).symm ▸ rfl
  | cons x xs ih =>
    intro h hC hCt hmax huniq
    have hstep : sortHead cmpByRecency h (x :: xs) =
        sortHead cmpByRecency (if cmpByRecency x h < 0 then x else h) xs := rfl
    rw [hstep]
    set h' : Connection := if cmpByRecency x h < 0 then x else h with hh'
    have hsub : ∀ d, d ∈ h' :: xs → d ∈ h :: x :: xs := by
      intro d hd
      rcases List.mem_cons.1 hd with heq | hd2
      · rw [hh'] at heq
        by_cases hc : cmpByRecency x h < 0
        · rw [if_pos hc] at heq
          exact heq ▸ List.mem_cons.2 (Or.inr (List.mem_cons_self _ _))
        · rw [if_neg hc] at heq
          exact heq ▸ List.mem_cons_self _ _
      · exact List.mem_cons.2 (Or.inr (List.mem_cons.2 (Or.inr hd2)))
    have hxmem : x ∈ h :: x :: xs := List.mem_cons.2 (Or.inr (List.mem_cons_self _ _))
    have hC' : C ∈ h' :: xs := by
      rcases List.mem_cons.1 hC with heq | hC2
      · -- C is the old head; the fold keeps it
        subst heq
        have hps : h' = C := by
          rw [hh']
          by_cases hc : cmpByRecency x C < 0
          · rw [if_pos hc]
            unfold cmpByRecency at hc
            rcases hx : x.lastUsedAt with _ | sx
            · rw [hx, hCt] at hc
              simp at hc
            · rw [hx, hCt] at hc
              dsimp only at hc
              have hsx : sx ≤ t := hmax x hxmem sx hx
              have hxt : sx = t := by omega
              exact huniq x hxmem (hxt ▸ hx)
          · rw [if_neg hc]
        rw [hps]
        exact List.mem_cons_self _ _
      · rcases List.mem_cons.1 hC2 with heq | hC3
        · -- C is x; the fold picks it up
          subst heq
          have hps : h' = C := by
            rw [hh']
            by_cases hc : cmpByRecency C h < 0
            · rw [if_pos hc]
            · rw [if_neg hc]
              unfold cmpByRecency at hc
              rcases hh2 : h.lastUsedAt with _ | sh
              · rw [hh2, hCt] at hc
                simp at hc
              · rw [hh2, hCt] at hc
                dsimp only at hc
                have hsh : sh ≤ t := hmax h (List.mem_cons_self _ _) sh hh2
                have hht : sh = t := by omega
                exact huniq h (List.mem_cons_self _ _) (hht ▸ hh2)
          rw [hps]
          exact List.mem_cons_self _ _
        · exact List.mem_cons.2 (Or.inr hC3)
    exact ih h' hC' hCt (fun d hd s hs => hmax d (hsub d hd) s hs)
      (fun d hd hdt => huniq d (hsub d hd) hdt)

theorem selectStrategy_roundRobin (settings : Settings) (conns : List Connection)
    (now : Nat) (a : Connection) (rest : List Connection)
    (hrr : settings.fallbackStrategy = "round-robin") :
    selectStrategy settings conns now a rest =
      if (sortHead cmpByRecency a rest).lastUsedAt.isSome &&
         jsOrNat (sortHead cmpByRecency a rest).consecutiveUseCount 0 <
           jsOrNat settings.stickyRoundRobinLimit 3 then
        (.selected (sortHead cmpByRecency a rest),
         applyRoundRobinUse conns (sortHead cmpByRecency a rest).id now
           (((sortHead cmpByRecency a rest).consecutiveUseCount.getD 0) + 1))
      else
        (.selected (sortHead cmpByOldest a rest),
         applyRoundRobinUse conns (sortHead cmpByOldest a rest).id now 1) := by
  simp only [selectStrategy, hrr]
  rfl

/-- **C4 counterexample.** With `stickyRoundRobinLimit = 2` and two never-used
connections A (id 1, priority 1) and B (id 2, priority 2), six consecutive
selections through `getProviderCredentials` produce A, A, B, B, A, A — not the
claimed A, A, B for requests 1-3 followed by B, B, A for requests 4-6 (which
would make B serve requests 3, 4 and 5, exceeding the sticky limit of 2). -/
theorem sticky_round_robin_claim_counterexample :
    rrTrace6 = [some 1, some 1, some 2, some 2, some 1, some 1] ∧
    rrTrace6 ≠ [some 1, some 1, some 2, some 2, some 2, some 1] := by
  decide

/-- **C4 (amended).** Under the sticky round-robin strategy with
`stickyRoundRobinLimit = 2` and two available connections A and B (initially
never used, A first by priority), six consecutive selections return A, A, B
for requests 1-3 and B, A, A for requests 4-6.  In general the scheduler
re-uses the most-recently-used connection C while `C.lastUsedAt` is non-null
and `C.consecutiveUseCount < stickyLimit` (persisting `lastUsedAt = now` and
`consecutiveUseCount += 1`), and otherwise picks the least-recently-used
connection, nulls first (persisting `lastUsedAt = now` and
`consecutiveUseCount = 1`). -/
theorem sticky_round_robin_schedule :
    rrTrace6 = [some 1, some 1, some 2, some 2, some 1, some 1] ∧
    (∀ (settings : Settings) (conns : List Connection) (now : Nat)
        (a C : Connection) (rest : List Connection) (t : Nat),
      settings.fallbackStrategy = "round-robin" →
      C ∈ a :: rest → C.lastUsedAt = some t →
      (∀ d ∈ a :: rest, ∀ s, d.lastUsedAt = some s → s ≤ t) →
      (∀ d ∈ a :: rest, d.lastUsedAt = some t → d = C) →
      jsOrNat C.consecutiveUseCount 0 < jsOrNat settings.stickyRoundRobinLimit 3 →
      selectStrategy settings conns now a rest =
        (.selected C,
         applyRoundRobinUse conns C.id now (C.consecutiveUseCount.getD 0 + 1))) ∧
    (∀ (settings : Settings) (conns : List Connection) (now : Nat)
        (a : Connection) (rest : List Connection),
      settings.fallbackStrategy = "round-robin" →
      ((sortHead cmpByRecency a rest).lastUsedAt = none ∨
       ¬ jsOrNat (sortHead cmpByRecency a rest).consecutiveUseCount 0 <
           jsOrNat settings.stickyRoundRobinLimit 3) →
      selectStrategy settings conns now a rest =
        (.selected (sortHead cmpByOldest a rest),
         applyRoundRobinUse conns (sortHead cmpByOldest a rest).id now 1)) := by
  refine ⟨by decide, ?_, ?_⟩
  · intro settings conns now a C rest t hrr hmem hCt hmax huniq hcount
    have hhead : sortHead cmpByRecency a rest = C :=
      sortHead_recency_eq C t rest a hmem hCt hmax huniq
    rw [selectStrategy_roundRobin settings conns now a rest hrr, hhead,
      if_pos (by simp [hCt, hcount])]
  · intro settings conns now a rest hrr hcond
    rw [selectStrategy_roundRobin settings conns now a rest hrr, if_neg]
    rcases hcond with hnone | hcount
    · simp [hnone]
    · simp [hcount]

/-- Witness for C4: at a concrete state where A was used most recently (time 5,
count 1 < limit 2) the scheduler sticks with A, persisting `lastUsedAt = 10`
and count 2. -/
theorem sticky_round_robin_schedule_witness :
    selectStrategy settingsRR [connA5, connB3] 10 connA5 [connB3] =
      (.selected connA5, applyRoundRobinUse [connA5, connB3] 1 10 2) := by
  have h := sticky_round_robin_schedule.2.1 settingsRR [connA5, connB3] 10
    connA5 connA5 [connB3] 5 rfl (List.mem_cons_self _ _) rfl
    (by decide) (by decide) (by decide)
  simpa using h

theorem refreshLoop_spec (α : Type) (fn : Nat → RefreshOutcome α) :
    ∀ (fuel attempt : Nat) (ds : List Nat),
      attempt ≤ (refreshLoop fn fuel attempt ds).attempts ∧
      (refreshLoop fn fuel attempt ds).attempts ≤ attempt + fuel ∧
      ((refreshLoop fn fuel attempt ds).result = none →
        (refreshLoop fn fuel attempt ds).attempts = attempt + fuel ∧
        ∀ j, attempt ≤ j → j < attempt + fuel → ∀ w, fn j ≠ .ok w) ∧
      (∀ v, (refreshLoop fn fuel attempt ds).result = some v →
        ∃ k, attempt ≤ k ∧ k < attempt + fuel ∧ fn k = .ok v ∧
          (refreshLoop fn fuel attempt ds).attempts = k + 1 ∧
          ∀ j, attempt ≤ j → j < k → ∀ w, fn j ≠ .ok w) ∧
      (attempt = 0 → (refreshLoop fn fuel attempt ds).delays =
        ds ++ (List.range' 1 ((refreshLoop fn fuel attempt ds).attempts - 1)).map
          (· * 1000)) ∧
      (1 ≤ attempt → (refreshLoop fn fuel attempt ds).delays =
        ds ++ (List.range' attempt
          ((refreshLoop fn fuel attempt ds).attempts - attempt)).map (· * 1000)) := by
  intro fuel
  induction fuel with
  | zero =>
    intro attempt ds
    refine ⟨le_rfl, by simp [refreshLoop], ?_, ?_, ?_, ?_⟩
    · exact fun _ => ⟨by simp [refreshLoop], fun j h1 h2 => by omega⟩
    · intro v hv
      simp [refreshLoop] at hv
    · intro h0
      simp [refreshLoop]
      omega
    · intro h1
      simp [refreshLoop]
  | succ fuel ih =>
    intro attempt ds
    rcases hfn : fn attempt with v | _ | _
    all_goals
      simp only [refreshLoop, hfn]
    -- success at this attempt
    · refine ⟨by omega, by omega, ?_, ?_, ?_, ?_⟩
      · intro h
        simp at h
      · intro w hw
        simp only [Option.some.injEq] at hw
        exact ⟨attempt, le_rfl, by omega, hw ▸ hfn, rfl, fun j h1 h2 => by omega⟩
      · intro h0
        simp [h0]
      · intro h1
        simp [show 0 < attempt by omega, Nat.add_sub_cancel_left]
    -- null result: continue
    · obtain ⟨g1, g2, g3, g4, g5, g6⟩ := ih (attempt + 1)
        (if 0 < attempt then ds ++ [attempt * 1000] else ds)
      refine ⟨by omega, by omega, ?_, ?_, ?_, ?_⟩
      · intro h
        obtain ⟨ha, hnone⟩ := g3 h
        refine ⟨by omega, fun j h1 h2 w => ?_⟩
        rcases Nat.eq_or_lt_of_le h1 with rfl | hgt
        · rw [hfn]; simp
        · exact hnone j (by omega) (by omega) w
      · intro v hv
        obtain ⟨k, hk1, hk2, hk3, hk4, hk5⟩ := g4 v hv
        refine ⟨k, by omega, by omega, hk3, hk4, fun j h1 h2 w => ?_⟩
        rcases Nat.eq_or_lt_of_le h1 with rfl | hgt
        · rw [hfn]; simp
        · exact hk5 j (by omega) (by omega) w
      · intro h0
        subst h0
        simpa using g6 (by omega)
      · intro h1
        rw [if_pos (show 0 < attempt by omega)]
        have hds := g6 (by omega)
        rw [if_pos (show 0 < attempt by omega)] at hds g1
        rw [hds]
        have harith : (refreshLoop fn fuel (attempt + 1)
            (ds ++ [attempt * 1000])).attempts - attempt =
            ((refreshLoop fn fuel (attempt + 1)
              (ds ++ [attempt * 1000])).attempts - (attempt + 1)) + 1 := by omega
        rw [harith, List.range'_succ, List.map_cons, List.append_assoc]
        rfl
    -- exception: continue (identical to the null case)
    · obtain ⟨g1, g2, g3, g4, g5, g6⟩ := ih (attempt + 1)
        (if 0 < attempt then ds ++ [attempt * 1000] else ds)
      refine ⟨by omega, by omega, ?_, ?_, ?_, ?_⟩
      · intro h
        obtain ⟨ha, hnone⟩ := g3 h
        refine ⟨by omega, fun j h1 h2 w => ?_⟩
        rcases Nat.eq_or_lt_of_le h1 with rfl | hgt
        · rw [hfn]; simp
        · exact hnone j (by omega) (by omega) w
      · intro v hv
        obtain ⟨k, hk1, hk2, hk3, hk4, hk5⟩ := g4 v hv
        refine ⟨k, by omega, by omega, hk3, hk4, fun j h1 h2 w => ?_⟩
        rcases Nat.eq_or_lt_of_le h1 with rfl | hgt
        · rw [hfn]; simp
        · exact hk5 j (by omega) (by omega) w
      · intro h0
        subst h0
        simpa using g6 (by omega)
      · intro h1
        rw [if_pos (show 0 < attempt by omega)]
        have hds := g6 (by omega)
        rw [if_pos (show 0 < attempt by omega)] at hds g1
        rw [hds]
        have harith : (refreshLoop fn fuel (attempt + 1)
            (ds ++ [attempt * 1000])).attempts - attempt =
            ((refreshLoop fn fuel (attempt + 1)
              (ds ++ [attempt * 1000])).attempts - (attempt + 1)) + 1 := by omega
        rw [harith, List.range'_succ, List.map_cons, List.append_assoc]
        rfl

/-- **C8 counterexample.** With `maxRetries = 3` and a refresh function that
always returns null, the wrapper makes 3 attempts but sleeps only twice —
1000 ms and 2000 ms — never 3000 ms: the claimed delay sequence
"1s, 2s, 3s" does not occur. -/
theorem refreshWithRetry_claim_counterexample :
    (refreshWithRetry refreshAlwaysNull 3).attempts = 3 ∧
    (refreshWithRetry refreshAlwaysNull 3).delays = [1000, 2000] ∧
    (refreshWithRetry refreshAlwaysNull 3).delays ≠ [1000, 2000, 3000] := by
  decide

/-- **C8 (amended).** `refreshWithRetry(fn, maxRetries = 3)` makes at most 3
attempts, waiting `attempt * 1000` ms before each retry — so at most two
delays, of 1 s and 2 s; it returns the first truthy result of `fn`, never
propagates an exception thrown by `fn` (exceptions are modelled as the
`threw` outcome and simply continue the loop), and returns null when every
attempt fails or throws — in which case all 3 attempts were made. -/
theorem refreshWithRetry_bounded (α : Type) (fn : Nat → RefreshOutcome α) :
    (refreshWithRetry fn 3).attempts ≤ 3 ∧
    (refreshWithRetry fn 3).delays =
      (List.range' 1 ((refreshWithRetry fn 3).attempts - 1)).map (· * 1000) ∧
    (∀ v, (refreshWithRetry fn 3).result = some v →
      ∃ k, k < 3 ∧ fn k = .ok v ∧ (refreshWithRetry fn 3).attempts = k + 1 ∧
        ∀ j, j < k → ∀ w, fn j ≠ .ok w) ∧
    ((refreshWithRetry fn 3).result = none →
      ((refreshWithRetry fn 3).attempts = 3 ∧ ∀ k, k < 3 → ∀ w, fn k ≠ .ok w)) := by
  obtain ⟨g1, g2, g3, g4, g5, g6⟩ := refreshLoop_spec α fn 3 0 []
  refine ⟨by simpa [refreshWithRetry] using g2, ?_, ?_, ?_⟩
  · simpa [refreshWithRetry] using g5 rfl
  · intro v hv
    obtain ⟨k, hk1, hk2, hk3, hk4, hk5⟩ := g4 v hv
    exact ⟨k, by omega, hk3, hk4, fun j hj w => hk5 j (by omega) (by omega) w⟩
  · intro h
    obtain ⟨ha, hnone⟩ := g3 h
    exact ⟨ha, fun k hk w => hnone k (by omega) (by omega) w⟩

/-- Witness for C8: a function that fails once and then returns a token makes
2 attempts, sleeps exactly once (1000 ms), and yields the token. -/
theorem refreshWithRetry_bounded_witness :
    (refreshWithRetry refreshSucceedsSecond 3).attempts ≤ 3 ∧
    (∃ k, k < 3 ∧ refreshSucceedsSecond k = .ok 42 ∧
      (refreshWithRetry refreshSucceedsSecond 3).attempts = k + 1 ∧
      ∀ j, j < k → ∀ w, refreshSucceedsSecond j ≠ .ok w) ∧
    (refreshWithRetry refreshSucceedsSecond 3).delays = [1000] := by
  have h := refreshWithRetry_bounded Nat refreshSucceedsSecond
  exact ⟨h.1, h.2.2.1 42 (by decide), by decide⟩

theorem be4_roundtrip (n : Nat) (h : n < 2 ^ 32) :
    n / 2 ^ 24 % 256 * 2 ^ 24 + n / 2 ^ 16 % 256 * 2 ^ 16 +
    n / 2 ^ 8 % 256 * 2 ^ 8 + n % 256 = n := by
  omega

/-- **C6.** Cursor request framing round-trips: for every message list, model
name and ambient environment, `generateCursorBody` produces exactly one frame
`[flags:u8][length:u32-be][payload]` with `flags = 0x01` and a gzip-compressed
payload if and only if the message list has at least 3 messages (`flags = 0x00`
and the raw payload otherwise), and `parseConnectRPCFrame` applied to that
frame recovers the flags, the stored length, and a payload byte-for-byte equal
to the protobuf bytes produced by `buildChatRequest`; the frame's `consumed`
count is the whole body.  Hypotheses: gzip decompression inverts compression
(zlib's contract), and the on-wire payload is shorter than 2^31 bytes (a Node
buffer bound). -/
theorem cursor_frame_roundtrip (gz : GzipModel)
    (hgz : ∀ x, gz.gunzip (gz.gzip x) = some x)
    (messages : List CMessage) (modelName : String) (env : CursorEnv)
    (hlen : (if 3 ≤ messages.length then
        gz.gzip (buildChatRequest messages modelName env)
      else buildChatRequest messages modelName env).length < 2 ^ 31) :
    ∃ fr, parseConnectRPCFrame gz (generateCursorBody gz messages modelName env) =
        some fr ∧
      (fr.flags = 1 ↔ 3 ≤ messages.length) ∧
      (fr.flags = 0 ↔ messages.length < 3) ∧
      fr.payload = buildChatRequest messages modelName env ∧
      fr.length = (if 3 ≤ messages.length then
          gz.gzip (buildChatRequest messages modelName env)
        else buildChatRequest messages modelName env).length ∧
      fr.consumed = (generateCursorBody gz messages modelName env).length := by
  by_cases hc : 3 ≤ messages.length
  · have hdec : decide (3 ≤ messages.length) = true := by simp [hc]
    have hL : (gz.gzip (buildChatRequest messages modelName env)).length < 2 ^ 32 := by
      rw [if_pos hc] at hlen
      omega
    have hbe := be4_roundtrip (gz.gzip (buildChatRequest messages modelName env)).length hL
    refine ⟨⟨1, (gz.gzip (buildChatRequest messages modelName env)).length,
      buildChatRequest messages modelName env,
      5 + (gz.gzip (buildChatRequest messages modelName env)).length⟩, ?_, ?_, ?_, rfl,
      by rw [if_pos hc], ?_⟩
    · simp only [generateCursorBody, wrapConnectRPCFrame, hdec, if_true,
        parseConnectRPCFrame, Nat.shiftRight_eq_div_pow]
      rw [hbe]
      rw [if_neg (by omega)]
      simp [List.take_length, hgz]
    · exact ⟨fun _ => hc, fun _ => rfl⟩
    · simp only [ParsedFrame.mk.injEq]
      simp
      omega
    · simp [generateCursorBody, wrapConnectRPCFrame, hdec]
      try omega
  · have hdec : decide (3 ≤ messages.length) = false := by simp [hc]
    have hL : (buildChatRequest messages modelName env).length < 2 ^ 32 := by
      rw [if_neg hc] at hlen
      omega
    have hbe := be4_roundtrip (buildChatRequest messages modelName env).length hL
    refine ⟨⟨0, (buildChatRequest messages modelName env).length,
      buildChatRequest messages modelName env,
      5 + (buildChatRequest messages modelName env).length⟩, ?_, ?_, ?_, rfl,
      by rw [if_neg hc], ?_⟩
    · simp only [generateCursorBody, wrapConnectRPCFrame, hdec, if_false,
        Bool.false_eq_true, parseConnectRPCFrame, Nat.shiftRight_eq_div_pow]
      rw [hbe]
      rw [if_neg (by omega)]
      simp [List.take_length]
    · simp only [ParsedFrame.mk.injEq]
      simp
      omega
    · exact ⟨fun _ => by omega, fun _ => rfl⟩
    · simp [generateCursorBody, wrapConnectRPCFrame, hdec]
      try omega

set_option maxRecDepth 100000 in
/-- Witness for C6: concrete round trips with four messages (compressed frame,
flags 0x01) and two messages (raw frame, flags 0x00). -/
theorem cursor_frame_roundtrip_witness :
    (∃ fr, parseConnectRPCFrame gzId (generateCursorBody gzId msgsW4 "gpt" envW) =
        some fr ∧
      (fr.flags = 1 ↔ 3 ≤ msgsW4.length) ∧
      (fr.flags = 0 ↔ msgsW4.length < 3) ∧
      fr.payload = buildChatRequest msgsW4 "gpt" envW ∧
      fr.length = (if 3 ≤ msgsW4.length then
          gzId.gzip (buildChatRequest msgsW4 "gpt" envW)
        else buildChatRequest msgsW4 "gpt" envW).length ∧
      fr.consumed = (generateCursorBody gzId msgsW4 "gpt" envW).length) ∧
    (∃ fr, parseConnectRPCFrame gzId (generateCursorBody gzId msgsW2 "gpt" envW) =
        some fr ∧
      (fr.flags = 1 ↔ 3 ≤ msgsW2.length) ∧
      (fr.flags = 0 ↔ msgsW2.length < 3) ∧
      fr.payload = buildChatRequest msgsW2 "gpt" envW ∧
      fr.length = (if 3 ≤ msgsW2.length then
          gzId.gzip (buildChatRequest msgsW2 "gpt" envW)
        else buildChatRequest msgsW2 "gpt" envW).length ∧
      fr.consumed = (generateCursorBody gzId msgsW2 "gpt" envW).length) :=
  ⟨cursor_frame_roundtrip gzId (fun _ => rfl) msgsW4 "gpt" envW (by decide),
   cursor_frame_roundtrip gzId (fun _ => rfl) msgsW2 "gpt" envW (by decide)⟩

/-- **C7 (code bug).** The claim (and the code's own comment "Create 6-byte
big-endian array") say the checksum encodes the 6-byte big-endian timestamp;
but JS reduces shift counts mod 32, so `timestamp >> 40` is `timestamp >> 8`
and `timestamp >> 32` is `timestamp` — the array actually built at
`timestamp = 1760000` (a realistic `Date.now()/1e6` value) is
`[219, 0, 0, 26, 219, 0]`, not the big-endian `[0, 0, 0, 26, 219, 0]`, and the
resulting checksum differs from the specified one.  Determinism (the remaining
part of the claim) does hold: the checksum is a pure function of
`(timestamp, machineId)`. -/
theorem generateChecksum_not_bigEndian :
    cursorTimestampBytes 1760000 = [219, 0, 0, 26, 219, 0] ∧
    bigEndian6 1760000 = [0, 0, 0, 26, 219, 0] ∧
    cursorTimestampBytes 1760000 ≠ bigEndian6 1760000 ∧
    generateChecksum 1760000 "mid" ≠ generateChecksumSpecBE 1760000 "mid" ∧
    generateChecksum 1760000 "mid" = generateChecksum 1760000 "mid" := by
  refine ⟨by decide, by decide, by decide, ?_, rfl⟩
  decide

theorem concatArgs_append (l : List ToolCallEvent) (e : ToolCallEvent) (id : String) :
    concatArgs (l ++ [e]) id =
      if e.id = id then concatArgs l id ++ e.arguments else concatArgs l id := by
  unfold concatArgs
  rw [List.filter_append, List.map_append, List.foldl_append]
  by_cases h : e.id = id <;> simp [h]

theorem firstNameFor_append (l : List ToolCallEvent) (e : ToolCallEvent) (id : String) :
    firstNameFor (l ++ [e]) id =
      match l.find? (fun x => x.id = id) with
      | some a => some a.name
      | none => if e.id = id then some e.name else none := by
  unfold firstNameFor
  rw [List.find?_append]
  rcases h : l.find? (fun x => x.id = id) with _ | a
  · by_cases he : e.id = id <;> simp [h, he]
  · simp [h]

theorem concatArgs_of_absent (l : List ToolCallEvent) (id : String)
    (h : ∀ x ∈ l, x.id ≠ id) : concatArgs l id = "" := by
  unfold concatArgs
  rw [List.filter_eq_nil_iff.2 (by intro a ha; simpa using h a ha)]
  rfl

theorem wf_toolEvents_append (l : List ToolCallEvent) (e : ToolCallEvent)
    (h : WFToolEvents (l ++ [e])) :
    WFToolEvents l ∧ ∀ a ∈ l, a.id = e.id → a.isLast = false := by
  unfold WFToolEvents at *
  rw [List.pairwise_append] at h
  exact ⟨h.1, fun a ha hid => h.2.2 a ha e (List.mem_singleton_self _) hid⟩


theorem toolCallStep_inv (l : List ToolCallEvent) (e : ToolCallEvent)
    (st : List (String × ToolAcc) × List (String × String × String))
    (ih1 : ∀ p ∈ st.1, firstNameFor l p.1 = some p.2.name ∧
      p.2.arguments = concatArgs l p.1)
    (ih2 : ∀ id, (∃ ev ∈ l, ev.id = id) → ∃ p ∈ st.1, p.1 = id)
    (ih3 : ∀ q ∈ st.2, firstNameFor l q.1 = some q.2.1 ∧ q.2.2 = concatArgs l q.1)
    (ih4 : ∀ q ∈ st.2, ∃ ev ∈ l, ev.id = q.1 ∧ ev.isLast = true)
    (hlastfalse : ∀ a ∈ l, a.id = e.id → a.isLast = false) :
    (∀ p ∈ (toolCallStep st e).1, firstNameFor (l ++ [e]) p.1 = some p.2.name ∧
      p.2.arguments = concatArgs (l ++ [e]) p.1) ∧
    (∀ id, (∃ ev ∈ l ++ [e], ev.id = id) → ∃ p ∈ (toolCallStep st e).1, p.1 = id) ∧
    (∀ q ∈ (toolCallStep st e).2, firstNameFor (l ++ [e]) q.1 = some q.2.1 ∧
      q.2.2 = concatArgs (l ++ [e]) q.1) ∧
    (∀ q ∈ (toolCallStep st e).2, ∃ ev ∈ l ++ [e], ev.id = q.1 ∧ ev.isLast = true) := by
  have hfn_isSome : ∀ (key nm : String), firstNameFor l key = some nm →
      (l.find? fun x => x.id = key).isSome := by
    intro key nm h
    unfold firstNameFor at h
    rcases hf : l.find? fun x => x.id = key with _ | a
    · rw [hf] at h
      simp at h
    · rw [hf]
      rfl
  have hfinne : ∀ q ∈ st.2, q.1 ≠ e.id := by
    intro q hq heq
    obtain ⟨ev, hev, hevid, hevlast⟩ := ih4 q hq
    have := hlastfalse ev hev (by rw [hevid, heq])
    rw [hevlast] at this
    cases this
  have hkeep : ∀ (key : String), key ≠ e.id →
      (l.find? fun x => x.id = key).isSome →
      firstNameFor (l ++ [e]) key = firstNameFor l key ∧
      concatArgs (l ++ [e]) key = concatArgs l key := by
    intro key hne hsome
    obtain ⟨a, ha⟩ := Option.isSome_iff_exists.1 hsome
    refine ⟨?_, ?_⟩
    · rw [firstNameFor_append, ha]
      unfold firstNameFor
      rw [ha]
      rfl
    · rw [concatArgs_append, if_neg fun h => hne h.symm]
  have hinv1 : ∀ p ∈ toolCallMapStep st.1 e,
      firstNameFor (l ++ [e]) p.1 = some p.2.name ∧
      p.2.arguments = concatArgs (l ++ [e]) p.1 := by
    rcases hfound : st.1.find? fun p => p.1 = e.id with _ | pfound
    · have hm : toolCallMapStep st.1 e =
          st.1 ++ [(e.id, ⟨e.name, e.arguments, e.isLast⟩)] := by
        unfold toolCallMapStep
        rw [hfound]
        rfl
      have hmapne : ∀ p ∈ st.1, p.1 ≠ e.id := by
        intro p hp
        simpa using List.find?_eq_none.1 hfound p hp
      have habsent : ∀ ev ∈ l, ev.id ≠ e.id := by
        intro ev hev heq
        obtain ⟨p, hp, hpk⟩ := ih2 e.id ⟨ev, hev, heq⟩
        exact hmapne p hp hpk
      have hfind_l_none : (l.find? fun x => x.id = e.id) = none :=
        List.find?_eq_none.2 fun x hx => by simpa using habsent x hx
      rw [hm]
      intro p hp
      rcases List.mem_append.1 hp with hp | hp
      · obtain ⟨k1, k2⟩ := hkeep p.1 (hmapne p hp) (hfn_isSome p.1 p.2.name (ih1 p hp).1)
        rw [k1, k2]
        exact ih1 p hp
      · rw [List.mem_singleton.1 hp]
        refine ⟨?_, ?_⟩
        · rw [firstNameFor_append, hfind_l_none]
          simp
        · rw [concatArgs_append, if_pos rfl, concatArgs_of_absent l e.id habsent]
          simp
    · have hm : toolCallMapStep st.1 e = st.1.map fun p =>
          if p.1 = e.id then (p.1, ⟨p.2.name, p.2.arguments ++ e.arguments, e.isLast⟩)
          else p := by
        unfold toolCallMapStep
        rw [hfound]
        rfl
      rw [hm]
      intro p' hp'
      obtain ⟨p, hp, hupd⟩ := List.mem_map.1 hp'
      by_cases hpe : p.1 = e.id
      · rw [if_pos hpe] at hupd
        subst hupd
        refine ⟨?_, ?_⟩
        · show firstNameFor (l ++ [e]) p.1 = some p.2.name
          obtain ⟨a, ha⟩ := Option.isSome_iff_exists.1
            (hfn_isSome p.1 p.2.name (ih1 p hp).1)
          rw [firstNameFor_append, ha]
          have h1 := (ih1 p hp).1
          unfold firstNameFor at h1
          rw [ha] at h1
          simpa using h1
        · show p.2.arguments ++ e.arguments = concatArgs (l ++ [e]) p.1
          rw [concatArgs_append, if_pos (by rw [hpe]), (ih1 p hp).2]
      · rw [if_neg hpe] at hupd
        subst hupd
        obtain ⟨k1, k2⟩ := hkeep p.1 hpe (hfn_isSome p.1 p.2.name (ih1 p hp).1)
        rw [k1, k2]
        exact ih1 p hp
  have hinv2 : ∀ id, (∃ ev ∈ l ++ [e], ev.id = id) →
      ∃ p ∈ toolCallMapStep st.1 e, p.1 = id := by
    rintro id ⟨ev, hev, hevid⟩
    rcases hfound : st.1.find? fun p => p.1 = e.id with _ | pfound
    · have hm : toolCallMapStep st.1 e =
          st.1 ++ [(e.id, ⟨e.name, e.arguments, e.isLast⟩)] := by
        unfold toolCallMapStep
        rw [hfound]
        rfl
      rw [hm]
      rcases List.mem_append.1 hev with hev | hev
      · obtain ⟨p, hp, hpk⟩ := ih2 id ⟨ev, hev, hevid⟩
        exact ⟨p, List.mem_append.2 (Or.inl hp), hpk⟩
      · rw [List.mem_singleton.1 hev] at hevid
        exact ⟨(e.id, ⟨e.name, e.arguments, e.isLast⟩),
          List.mem_append.2 (Or.inr (List.mem_singleton_self _)), hevid⟩
    · have hm : toolCallMapStep st.1 e = st.1.map fun p =>
          if p.1 = e.id then (p.1, ⟨p.2.name, p.2.arguments ++ e.arguments, e.isLast⟩)
          else p := by
        unfold toolCallMapStep
        rw [hfound]
        rfl
      rw [hm]
      have hkeypres : ∀ p ∈ st.1, p.1 = id →
          ∃ p' ∈ st.1.map fun p =>
            if p.1 = e.id then (p.1, ⟨p.2.name, p.2.arguments ++ e.arguments, e.isLast⟩)
            else p, p'.1 = id := by
        intro p hp hpk
        refine ⟨_, List.mem_map_of_mem _ hp, ?_⟩
        by_cases hpe : p.1 = e.id
        · rw [if_pos hpe]
          exact hpk
        · rw [if_neg hpe]
          exact hpk
      rcases List.mem_append.1 hev with hev | hev
      · obtain ⟨p, hp, hpk⟩ := ih2 id ⟨ev, hev, hevid⟩
        exact hkeypres p hp hpk
      · rw [List.mem_singleton.1 hev] at hevid
        have hpmem := List.mem_of_find?_eq_some hfound
        have hpk : pfound.1 = e.id := by simpa using List.find?_some hfound
        exact hkeypres pfound hpmem (by rw [hpk, hevid])
  have hold3 : ∀ q ∈ st.2, firstNameFor (l ++ [e]) q.1 = some q.2.1 ∧
      q.2.2 = concatArgs (l ++ [e]) q.1 := by
    intro q hq
    obtain ⟨k1, k2⟩ := hkeep q.1 (hfinne q hq) (hfn_isSome q.1 q.2.1 (ih3 q hq).1)
    rw [k1, k2]
    exact ih3 q hq
  have hold4 : ∀ q ∈ st.2, ∃ ev ∈ l ++ [e], ev.id = q.1 ∧ ev.isLast = true := by
    intro q hq
    obtain ⟨ev, hev, h1, h2⟩ := ih4 q hq
    exact ⟨ev, List.mem_append.2 (Or.inl hev), h1, h2⟩
  refine ⟨hinv1, hinv2, ?_, ?_⟩
  · show ∀ q ∈ (toolCallStep st e).2, _
    by_cases hl : e.isLast = true
    · have hsnd : (toolCallStep st e).2 =
          match (toolCallMapStep st.1 e).find? fun p => p.1 = e.id with
          | some p => st.2 ++ [(p.1, p.2.name, p.2.arguments)]
          | none => st.2 := by
        simp only [toolCallStep, hl, if_true]
      rw [hsnd]
      rcases hf2 : (toolCallMapStep st.1 e).find? fun p => p.1 = e.id with _ | pf
      · rw [hf2]
        exact hold3
      · rw [hf2]
        intro q hq
        rcases List.mem_append.1 hq with hq | hq
        · exact hold3 q hq
        · rw [List.mem_singleton.1 hq]
          exact hinv1 pf (List.mem_of_find?_eq_some hf2)
    · have hsnd : (toolCallStep st e).2 = st.2 := by
        simp [toolCallStep, hl]
      rw [hsnd]
      exact hold3
  · show ∀ q ∈ (toolCallStep st e).2, _
    by_cases hl : e.isLast = true
    · have hsnd : (toolCallStep st e).2 =
          match (toolCallMapStep st.1 e).find? fun p => p.1 = e.id with
          | some p => st.2 ++ [(p.1, p.2.name, p.2.arguments)]
          | none => st.2 := by
        simp only [toolCallStep, hl, if_true]
      rw [hsnd]
      rcases hf2 : (toolCallMapStep st.1 e).find? fun p => p.1 = e.id with _ | pf
      · rw [hf2]
        exact hold4
      · rw [hf2]
        intro q hq
        rcases List.mem_append.1 hq with hq | hq
        · exact hold4 q hq
        · rw [List.mem_singleton.1 hq]
          have hpk : pf.1 = e.id := by simpa using List.find?_some hf2
          exact ⟨e, List.mem_append.2 (Or.inr (List.mem_singleton_self _)),
            hpk.symm, hl⟩
    · have hsnd : (toolCallStep st e).2 = st.2 := by
        simp [toolCallStep, hl]
      rw [hsnd]
      exact hold4

theorem toolCallFold_inv (events : List ToolCallEvent) (hwf : WFToolEvents events) :
    (∀ p ∈ (events.foldl toolCallStep ([], [])).1,
      firstNameFor events p.1 = some p.2.name ∧
      p.2.arguments = concatArgs events p.1) ∧
    (∀ id, (∃ ev ∈ events, ev.id = id) →
      ∃ p ∈ (events.foldl toolCallStep ([], [])).1, p.1 = id) ∧
    (∀ q ∈ (events.foldl toolCallStep ([], [])).2,
      firstNameFor events q.1 = some q.2.1 ∧ q.2.2 = concatArgs events q.1) ∧
    (∀ q ∈ (events.foldl toolCallStep ([], [])).2,
      ∃ ev ∈ events, ev.id = q.1 ∧ ev.isLast = true) := by
  induction events using List.reverseRecOn with
  | nil =>
    refine ⟨?_, ?_, ?_, ?_⟩ <;> simp
  | append_singleton l e ih =>
    obtain ⟨hwl, hlast⟩ := wf_toolEvents_append l e hwf
    obtain ⟨ih1, ih2, ih3, ih4⟩ := ih hwl
    rw [List.foldl_append]
    simp only [List.foldl_cons, List.foldl_nil]
    exact toolCallStep_inv l e (l.foldl toolCallStep ([], [])) ih1 ih2 ih3 ih4 hlast

/-- C5: the claim says a frame whose inner message contains field 1 makes the
decoder emit a tool-call event; in fact `extractTextFromResponse` skips
field 1 entirely and never sets `toolCall` (or `error`): on a payload whose
decoded message does contain a field-1 entry it returns
`{text: none, error: none, toolCall: none}`. -/
theorem cursor_toolcall_claim_counterexample :
    ((decodeMessage cexToolPayload).any fun e => e.1 = 1) = true ∧
    extractTextFromResponse cexToolPayload =
      ⟨none, none, none⟩ := by
  decide

/-- C5 (amended): the decoder emits no tool-call events (`toolCall` is `none`
on every payload), while the executor's reassembly, fed a well-formed stream
of tool-call events, finalises for each occurring id an entry whose function
name is the first chunk's name and whose argument string is the concatenation,
in arrival order, of that id's argument chunks — entries never marked last
are finalised by the end-of-stream sweep as well. -/
theorem cursor_toolcall_reassembly (events : List ToolCallEvent) (id : String)
    (hwf : WFToolEvents events) (hocc : ∃ ev ∈ events, ev.id = id) :
    (∀ payload : List Nat, (extractTextFromResponse payload).toolCall = none) ∧
    ∃ q ∈ accumulateToolCalls events, q.1 = id ∧
      some q.2.1 = firstNameFor events id ∧ q.2.2 = concatArgs events id := by
  constructor
  · intro payload
    simp only [extractTextFromResponse]
    split <;> rfl
  · obtain ⟨inv1, inv2, inv3, inv4⟩ := toolCallFold_inv events hwf
    obtain ⟨p, hp, hpk⟩ := inv2 id hocc
    unfold accumulateToolCalls finalizeToolCalls
    rcases hq : (events.foldl toolCallStep ([], [])).2.find? fun q => q.1 = id
      with _ | q
    · refine ⟨(p.1, p.2.name, p.2.arguments),
        List.mem_append.2 (Or.inr (List.mem_map_of_mem _ (List.mem_filter.2
          ⟨hp, ?_⟩))), ?_, ?_, ?_⟩
      · rw [hpk, hq]
        rfl
      · exact hpk
      · show some p.2.name = firstNameFor events id
        rw [← hpk]
        exact (inv1 p hp).1.symm
      · show p.2.arguments = concatArgs events id
        rw [← hpk]
        exact (inv1 p hp).2
    · have hqmem := List.mem_of_find?_eq_some hq
      have hqk : q.1 = id := by simpa using List.find?_some hq
      refine ⟨q, List.mem_append.2 (Or.inl hqmem), hqk, ?_, ?_⟩
      · rw [← hqk]
        exact (inv3 q hqmem).1.symm
      · rw [← hqk]
        exact (inv3 q hqmem).2

/-- Witness for the C5 theorem: on the two-chunk stream the hypotheses hold
and the finalised entry concatenates the chunks. -/
theorem cursor_toolcall_reassembly_witness :
    WFToolEvents tcEvents ∧ (∃ ev ∈ tcEvents, ev.id = "call1") ∧
    ((∀ payload : List Nat, (extractTextFromResponse payload).toolCall = none) ∧
    ∃ q ∈ accumulateToolCalls tcEvents, q.1 = "call1" ∧
      some q.2.1 = firstNameFor tcEvents "call1" ∧
      q.2.2 = concatArgs tcEvents "call1") :=
  ⟨by decide, by decide,
    cursor_toolcall_reassembly tcEvents "call1" (by decide) (by decide)⟩
